import Mathlib

/-!
Verification of the competitor-monitor run pipeline against its Python source
(`scripts/semantic_diff.py`, `historical_retriever.py`, `report_generator.py`,
`approval_handler.py`, `error_handler.py`, `integration.py`).

The source is embedded shallowly: pure functions become Lean functions; the
stateful approval handler becomes explicit state passing over a handler value;
external collaborators (the page-fetch browser, the embedding provider, the
filesystem, the clock) appear as explicit parameters of the model.  Numeric
data of the source (Python floats) is modelled exactly over `ℚ`; timestamps
are integer seconds.
-/

namespace CompMon

/-! ## semantic_diff.py -/

/-- Result dictionary of `SemanticDiffer.calculate_similarity`
(semantic_diff.py lines 44-76).  The two `*_embedding` fields of the Python
dict merely replay the output of the external embedding provider and are
omitted here. -/
structure SimResult where
  similarity_percentage : ℚ
  cosine_similarity : ℚ
  threshold : ℚ
  shift_classification : String
  is_strategic_shift : Bool
deriving Repr, DecidableEq

/-- Floor of a rational, computed directly (`den` is positive, so floor
division of `num` by `den` is the floor). -/
def ratFloor (x : ℚ) : ℤ := Int.fdiv x.num x.den

/-- Round half to even on rationals: the rounding mode of Python's builtin
`round`, applied by the source to the similarity values. -/
def pyRoundHalfEven (x : ℚ) : ℤ :=
  let f : ℤ := ratFloor x
  let r : ℚ := x - f
  if r < 1/2 then f
  else if 1/2 < r then f + 1
  else if f % 2 = 0 then f else f + 1

/-- Python `round(x, n)` for nonnegative `n`. -/
def pyRoundTo (n : ℕ) (x : ℚ) : ℚ := (pyRoundHalfEven (x * 10 ^ n) : ℚ) / 10 ^ n

/-- `SemanticDiffer.calculate_similarity` (semantic_diff.py lines 44-76),
modelled as a function of the cosine similarity `s` delivered by the external
embedding provider (text → vector embedding and cosine are the excluded
collaborator, per the spec's scope).  Everything after the
`cosine_similarity(...)` call is mirrored: the percentage map, the rounding of
the two reported numbers, the fixed threshold 0.80 compared against the raw
similarity, and the classification strings. -/
def calculate_similarity (s : ℚ) : SimResult :=
  let similarity_percentage : ℚ := ((s + 1) / 2) * 100
  let threshold : ℚ := 80 / 100
  let is_strategic_shift : Bool := decide (s < threshold)
  { similarity_percentage := pyRoundTo 2 similarity_percentage
    cosine_similarity := pyRoundTo 4 s
    threshold := threshold
    shift_classification := if is_strategic_shift then "Strategic_Shift" else "minor_update"
    is_strategic_shift := is_strategic_shift }

/-- `SemanticDiffer.diff_texts` (semantic_diff.py lines 78-89): delegates to
`calculate_similarity`; `sim` is the external embed-then-cosine pipeline. -/
def diff_texts (sim : String → String → ℚ) (current_text historical_text : String) : SimResult :=
  calculate_similarity (sim current_text historical_text)

/-! ## historical_retriever.py -/

/-- A calendar date as produced by `datetime.strptime(_, '%Y-%m-%d')`. -/
structure Date where
  year : ℕ
  month : ℕ
  day : ℕ
deriving Repr, DecidableEq

/-- Days per month, Gregorian rules, as `datetime` validates day-of-month. -/
def daysInMonth (y m : ℕ) : ℕ :=
  if m = 2 then (if y % 4 = 0 ∧ (y % 100 ≠ 0 ∨ y % 400 = 0) then 29 else 28)
  else if m = 4 ∨ m = 6 ∨ m = 9 ∨ m = 11 then 30 else 31

/-- The validation `datetime.strptime` performs on a `%Y-%m-%d` parse
(`datetime.MINYEAR = 1`, `MAXYEAR = 9999`, day checked against the month). -/
def Date.valid (d : Date) : Bool :=
  decide (1 ≤ d.year ∧ d.year ≤ 9999 ∧ 1 ≤ d.month ∧ d.month ≤ 12 ∧
    1 ≤ d.day ∧ d.day ≤ daysInMonth d.year d.month)

/-- Ordinal key of a date.  Since `month ≤ 12 < 100` and `day ≤ 31 < 100` for
every date accepted by `Date.valid`, comparing keys is the lexicographic
year/month/day comparison `datetime` uses. -/
def Date.key (d : Date) : ℕ := d.year * 10000 + d.month * 100 + d.day

/-- ASCII digit value. -/
def digitVal (c : Char) : ℕ := c.toNat - 48

/-- Filename match of `HistoricalRetriever.REPORT_PATTERN`
(`^(\d{4}-\d{2}-\d{2})_Intelligence\.md$`, historical_retriever.py line 17)
followed by the `strptime` validation of line 51 - files failing either are
skipped by the scan loop.  Digits are modelled as ASCII digits; the filenames
of this store are produced by `FileOrganizer` via `strftime` and are ASCII. -/
def parseReportDate (name : String) : Option Date :=
  match name.data with
  | y1 :: y2 :: y3 :: y4 :: '-' :: m1 :: m2 :: '-' :: d1 :: d2 :: rest =>
    if (y1.isDigit && y2.isDigit && y3.isDigit && y4.isDigit &&
        m1.isDigit && m2.isDigit && d1.isDigit && d2.isDigit) &&
        rest == "_Intelligence.md".data then
      let d : Date := ⟨digitVal y1 * 1000 + digitVal y2 * 100 + digitVal y3 * 10 + digitVal y4,
                      digitVal m1 * 10 + digitVal m2, digitVal d1 * 10 + digitVal d2⟩
      if d.valid then some d else none
    else none
  | _ => none

/-- The report store as `HistoricalRetriever` sees it: whether the reports
directory exists, and the names of its files in directory-scan order. -/
structure Store where
  dirExists : Bool
  files : List String

/-- The scan loop of `find_latest_report` (historical_retriever.py lines
44-62).  The accumulator pairs the two Python locals `latest_report` and
`latest_date`, which are always both `None` or both set.  The `glob('*.md')`
pre-filter is folded into `parseReportDate`: every name the regex accepts ends
in `.md` and starts with a digit (so is not a glob-hidden dotfile), hence the
glob filter does not change which files survive the pattern match. -/
def findLoop (before : ℕ) : List String → Option (String × ℕ) → Option (String × ℕ)
  | [], best => best
  | f :: rest, best =>
    match parseReportDate f with
    | none => findLoop before rest best
    | some d =>
      if d.key < before then
        match best with
        | none => findLoop before rest (some (f, d.key))
        | some (bf, bk) =>
          if bk < d.key then findLoop before rest (some (f, d.key))
          else findLoop before rest (some (bf, bk))
      else findLoop before rest best

/-- `HistoricalRetriever.find_latest_report` (historical_retriever.py lines
28-62).  `before` is the key of the reference date; the stored reports parse
to midnight datetimes, so `report_date < before_date` is the strict date-key
comparison whenever the reference is a calendar date. -/
def find_latest_report (st : Store) (before : ℕ) : Option String :=
  if st.dirExists then (findLoop before st.files none).map Prod.fst else none

/-! ## report_generator.py -/

/-- Rendering of a Python number inside an f-string (`str(x)`).  The claims
never constrain the digit syntax of this rendering — only the structure of
the report and which values are interpolated — so the standard `ℚ`
representation stands in for Python's float/int formatting. -/
def ratStr (q : ℚ) : String := toString q

/-- An entry of the `competitor_results` list consumed by
`ReportGenerator.generate_report`: the dict keys written by
`integration.py`.  A key absent from the dict is `none`; the `dict.get`
defaults of the source are applied at its use sites, as in the source. -/
structure CompetitorResult where
  competitor_name : Option String := none
  url : Option String := none
  analysis_date : Option String := none
  similarity_percentage : Option ℚ := none
  shift_classification : Option String := none
  findings : Option String := none
  baseline_date : Option String := none
  detailed_changes : Option String := none
  is_strategic_shift : Option Bool := none
  shift_details : Option String := none
deriving Repr, DecidableEq

/-- An entry of the `errors` list consumed by `generate_report`, as built by
`run_workflow` (integration.py lines 205-209). -/
structure ErrorDict where
  competitor_name : Option String := none
  error_message : Option String := none
deriving Repr, DecidableEq

/-- `ReportGenerator._generate_competitor_section` (report_generator.py lines
146-190), template transcribed byte-for-byte (including the trailing blanks
of three template lines). -/
def _generate_competitor_section (result : CompetitorResult) : String :=
  let name := result.competitor_name.getD "Unknown"
  let url := result.url.getD "N/A"
  let analysis_date := result.analysis_date.getD "N/A"
  let similarity_percentage :=
    match result.similarity_percentage with
    | some q => ratStr q
    | none => "0"
  let classification := result.shift_classification.getD "Unknown"
  let findings := result.findings.getD "No significant findings."
  let baseline_date := result.baseline_date.getD "N/A"
  let detailed_changes := result.detailed_changes.getD "No detailed changes available."
  let has_strategic_shift := result.is_strategic_shift.getD false
  let sec := "## Competitor: " ++ name ++ "\n\n### Overview\n- **URL**: " ++ url ++
    "\n- **Analysis Date**: " ++ analysis_date ++ "\n- **Similarity Score**: " ++
    similarity_percentage ++ "%\n- **Classification**: " ++ classification ++
    "\n\n### Findings\n\n" ++ findings ++
    "\n\n### Historical Comparison\n\nThe current content was compared against the baseline from " ++
    baseline_date ++ ". \nThe cosine similarity between embeddings is " ++ similarity_percentage ++
    "%, \nindicating a " ++ classification ++ ".\n\n### Detailed Changes\n\n" ++
    detailed_changes ++ "\n"
  let sec2 :=
    if has_strategic_shift then
      sec ++ "\n> **⚠️ STRATEGIC SHIFT DETECTED**\n> \n> This competitor has made a significant change in their messaging that may indicate \n> a change in business strategy, pricing model, or target demographic. \n> Further analysis is recommended.\n"
    else sec
  sec2 ++ "\n"

/-- `ReportGenerator._generate_error_section` (report_generator.py lines
192-206). -/
def _generate_error_section (errors : List ErrorDict) : String :=
  if errors.isEmpty then
    "## Error Summary\n\nAll competitors were processed successfully with no errors.\n"
  else
    let error_lines := ["## Error Summary\n\nThe following errors occurred during processing:\n"] ++
      errors.map (fun e =>
        "- **" ++ e.competitor_name.getD "Unknown" ++ "**: " ++ e.error_message.getD "Unknown error")
    String.intercalate "\n" error_lines ++ "\n"

/-- `ReportGenerator._generate_recommendations_section` (report_generator.py
lines 208-230); the source tests `if strategic_shifts:` (non-empty first),
mirrored here with the branches swapped around `isEmpty`. -/
def _generate_recommendations_section (strategic_shifts : List CompetitorResult) : String :=
  if strategic_shifts.isEmpty then
    "## Recommendations\n\nBased on the analysis, consider the following actions:\n\n1. No immediate strategic shifts detected. Continue regular monitoring.\n\n2. **Monitor Crunchbase**: Check Crunchbase profiles for recent funding rounds or team changes\n3. **Track Social Media**: Monitor Twitter/X for brand sentiment and customer feedback\n"
  else
    let shift_lines := ["## Recommendations\n\nBased on the analysis, consider the following actions:\n\n1. **Review Strategic Shifts**: The following competitors have detected strategic shifts that may require immediate attention:\n"] ++
      strategic_shifts.map (fun s =>
        "   - " ++ s.competitor_name.getD "Unknown" ++ ": " ++ s.shift_details.getD "No details available")
    String.intercalate "\n" shift_lines ++
      "\n2. **Monitor Crunchbase**: Check Crunchbase profiles for recent funding rounds or team changes\n3. **Track Social Media**: Monitor Twitter/X for brand sentiment and customer feedback\n"

/-- `ReportGenerator.generate_report` (report_generator.py lines 97-144).
The source stamps the header with `datetime.now().strftime('%Y-%m-%d')`: that
clock read is made explicit as the `current_date` parameter, the only use the
function makes of anything outside its two list arguments.  The optional
`errors` argument of the source defaults to `[]` (`errors or []`). -/
def generate_report (current_date : String) (competitor_results : List CompetitorResult)
    (errors : List ErrorDict) : String :=
  let strategic_shifts := competitor_results.filter (fun r => r.is_strategic_shift.getD false)
  let competitor_sections := competitor_results.map _generate_competitor_section
  let error_section := _generate_error_section errors
  let recommendations_section := _generate_recommendations_section strategic_shifts
  "# Intelligence Report: " ++ current_date ++
    ("\n\n## Executive Summary\n\nThis report contains competitive intelligence gathered on " ++
      toString competitor_results.length ++
      " competitors. \nThe analysis includes web content extraction, semantic diffing against historical baselines, \nand identification of strategic shifts.\n\n---\n\n" ++
      String.join competitor_sections ++ "\n\n" ++ error_section ++ "\n\n" ++
      recommendations_section ++ "\n")

/-- Everything `generate_report` emits after the interpolated header date: a
function of the two (results, errors) arguments alone.  Comparing with
`generate_report` isolates the single point where the source consults the
clock. -/
def report_body (competitor_results : List CompetitorResult) (errors : List ErrorDict) : String :=
  "\n\n## Executive Summary\n\nThis report contains competitive intelligence gathered on " ++
    toString competitor_results.length ++
    " competitors. \nThe analysis includes web content extraction, semantic diffing against historical baselines, \nand identification of strategic shifts.\n\n---\n\n" ++
    String.join (competitor_results.map _generate_competitor_section) ++ "\n\n" ++
    _generate_error_section errors ++ "\n\n" ++
    _generate_recommendations_section
      (competitor_results.filter (fun r => r.is_strategic_shift.getD false)) ++ "\n"

/-! ## approval_handler.py -/

/-- `ApprovalStatus` (approval_handler.py lines 13-18). -/
inductive ApprovalStatus
  | pending
  | approved
  | rejected
  | expired
deriving Repr, DecidableEq

/-- `ApprovalRequest` (approval_handler.py lines 21-88).  Python object
identity — what `in` / `list.remove` compare — is modelled by the `id` field,
issued from a monotone counter; clock readings are integer seconds. -/
structure ApprovalRequest where
  id : ℕ
  action_type : String
  description : String
  action_data : List (String × String)
  timeout_seconds : ℤ
  status : ApprovalStatus
  requested_at : ℤ
  approved_at : Option ℤ := none
  rejected_at : Option ℤ := none
  approver : Option String := none
deriving Repr, DecidableEq

/-- `ApprovalRequest.approve` (lines 45-53): the returned Bool, and the state
of the object after the call. -/
def ApprovalRequest.approve (r : ApprovalRequest) (now : ℤ) (approver : String) :
    Bool × ApprovalRequest :=
  if r.status ≠ .pending then (false, r)
  else (true, { r with status := .approved, approved_at := some now, approver := some approver })

/-- `ApprovalRequest.reject` (lines 55-63). -/
def ApprovalRequest.reject (r : ApprovalRequest) (now : ℤ) (approver : String) :
    Bool × ApprovalRequest :=
  if r.status ≠ .pending then (false, r)
  else (true, { r with status := .rejected, rejected_at := some now, approver := some approver })

/-- `ApprovalRequest.is_expired` (lines 65-71): only a still-pending request
can read as expired; elapsed time strictly above the timeout. -/
def ApprovalRequest.is_expired (r : ApprovalRequest) (now : ℤ) : Bool :=
  if r.status ≠ .pending then false
  else decide (r.timeout_seconds < now - r.requested_at)

/-- The status write `request.status = ApprovalStatus.EXPIRED` performed by
the expiry sweep (line 164). -/
def ApprovalRequest.expire (r : ApprovalRequest) : ApprovalRequest := { r with status := .expired }

/-- `ApprovalHandler` (approval_handler.py lines 91-260).  `nextId` is the
identity counter: Python never reuses an object identity, so it survives
`clear_requests`. -/
structure ApprovalHandler where
  nextId : ℕ := 0
  pending_requests : List ApprovalRequest := []
  approved_requests : List ApprovalRequest := []
  rejected_requests : List ApprovalRequest := []
deriving Repr, DecidableEq

/-- `ApprovalHandler.__init__`. -/
def initialHandler : ApprovalHandler := {}

/-- Common body of the three `request_*_approval` creators: construct a
request (`ApprovalRequest.__init__`, default timeout 300 s, status pending,
`requested_at = datetime.now()`) and append it to the pending list. -/
def ApprovalHandler.newRequest (h : ApprovalHandler) (now : ℤ)
    (action_type description : String) (action_data : List (String × String)) :
    ApprovalRequest × ApprovalHandler :=
  let r : ApprovalRequest :=
    { id := h.nextId, action_type := action_type, description := description,
      action_data := action_data, timeout_seconds := 300, status := .pending,
      requested_at := now }
  (r, { h with nextId := h.nextId + 1, pending_requests := h.pending_requests ++ [r] })

/-- `ApprovalHandler.request_terminal_approval` (lines 100-116). -/
def ApprovalHandler.request_terminal_approval (h : ApprovalHandler) (now : ℤ)
    (command : String) : ApprovalRequest × ApprovalHandler :=
  h.newRequest now "terminal" ("Execute terminal command: " ++ command.take 50 ++ "...")
    [("command", command)]

/-- `ApprovalHandler.request_file_approval` (lines 118-136). -/
def ApprovalHandler.request_file_approval (h : ApprovalHandler) (now : ℤ)
    (file_path action : String) : ApprovalRequest × ApprovalHandler :=
  h.newRequest now "file" (action ++ " file: " ++ file_path)
    [("file_path", file_path), ("action", action)]

/-- `ApprovalHandler.request_url_approval` (lines 138-154). -/
def ApprovalHandler.request_url_approval (h : ApprovalHandler) (now : ℤ)
    (url : String) : ApprovalRequest × ApprovalHandler :=
  h.newRequest now "url" ("Browse URL: " ++ url) [("url", url)]

/-- `ApprovalHandler.get_pending_request` (lines 156-176): early return on an
empty pending list; otherwise each time-expired pending request has its
status set to `expired` and is appended to `rejected_requests`, the pending
list is re-filtered to the still-`pending` ones, and the oldest remaining
pending request (if any) is returned. -/
def ApprovalHandler.get_pending_request (h : ApprovalHandler) (now : ℤ) :
    Option ApprovalRequest × ApprovalHandler :=
  if h.pending_requests.isEmpty then (none, h)
  else
    let newly_expired := (h.pending_requests.filter (fun r => r.is_expired now)).map
      ApprovalRequest.expire
    let marked := h.pending_requests.map (fun r => if r.is_expired now then r.expire else r)
    let h' : ApprovalHandler := { h with
      pending_requests := marked.filter (fun r => r.status == .pending),
      rejected_requests := h.rejected_requests ++ newly_expired }
    match h'.pending_requests with
    | [] => (none, h')
    | r :: _ => (some r, h')

/-- `ApprovalHandler.approve_request` (lines 178-197): `request not in
pending_requests` becomes an id lookup; on success the request is removed
from pending (`list.remove`, first occurrence) and its mutated form appended
to approved. -/
def ApprovalHandler.approve_request (h : ApprovalHandler) (rid : ℕ) (now : ℤ)
    (approver : String) : Bool × ApprovalHandler :=
  match h.pending_requests.find? (fun r => r.id == rid) with
  | none => (false, h)
  | some r =>
    let p := r.approve now approver
    if p.1 then
      (true,
        { h with
          pending_requests := h.pending_requests.eraseP (fun x => x.id == rid),
          approved_requests := h.approved_requests ++ [p.2] })
    else (false, h)

/-- `ApprovalHandler.reject_request` (lines 199-218). -/
def ApprovalHandler.reject_request (h : ApprovalHandler) (rid : ℕ) (now : ℤ)
    (approver : String) : Bool × ApprovalHandler :=
  match h.pending_requests.find? (fun r => r.id == rid) with
  | none => (false, h)
  | some r =>
    let p := r.reject now approver
    if p.1 then
      (true,
        { h with
          pending_requests := h.pending_requests.eraseP (fun x => x.id == rid),
          rejected_requests := h.rejected_requests ++ [p.2] })
    else (false, h)

/-- `ApprovalHandler.get_approved_count` (lines 248-250). -/
def ApprovalHandler.get_approved_count (h : ApprovalHandler) : ℕ := h.approved_requests.length

/-- `ApprovalHandler.get_rejected_count` (lines 252-254). -/
def ApprovalHandler.get_rejected_count (h : ApprovalHandler) : ℕ := h.rejected_requests.length

/-- `ApprovalHandler.clear_requests` (lines 256-260). -/
def ApprovalHandler.clear_requests (h : ApprovalHandler) : ApprovalHandler :=
  { h with pending_requests := [], approved_requests := [], rejected_requests := [] }

/-- One externally-triggerable operation on an `ApprovalHandler`, carrying
the clock value `datetime.now()` would read during the call.  The reachable
states of a handler are the results of running such operation lists from
`initialHandler`. -/
inductive HandlerOp
  | terminal (now : ℤ) (command : String)
  | file (now : ℤ) (file_path action : String)
  | url (now : ℤ) (u : String)
  | approveOp (now : ℤ) (rid : ℕ) (approver : String)
  | rejectOp (now : ℤ) (rid : ℕ) (approver : String)
  | getPending (now : ℤ)
  | clear

/-- Apply one operation, keeping the resulting handler state. -/
def stepHandler (h : ApprovalHandler) (op : HandlerOp) : ApprovalHandler :=
  match op with
  | .terminal now c => (h.request_terminal_approval now c).2
  | .file now p a => (h.request_file_approval now p a).2
  | .url now u => (h.request_url_approval now u).2
  | .approveOp now rid ap => (h.approve_request rid now ap).2
  | .rejectOp now rid ap => (h.reject_request rid now ap).2
  | .getPending now => (h.get_pending_request now).2
  | .clear => h.clear_requests

/-- Run a list of operations. -/
def runHandler (h : ApprovalHandler) (ops : List HandlerOp) : ApprovalHandler :=
  ops.foldl stepHandler h

/-! ## error_handler.py -/

/-- An entry of `ErrorHandler.errors` (error_handler.py lines 59-65).  The
`timestamp` is the `datetime.now().isoformat()` stamp, supplied by the
caller's clock in this model; `context` is always `{}` on every call site of
the orchestrator. -/
structure ErrorRecord where
  timestamp : String
  error_type : String
  message : String
  competitor_name : Option String
  context : List (String × String)
deriving Repr, DecidableEq

/-- `ErrorHandler.log_error` (lines 44-75): build the record and append it to
the ledger (the file/stream logging side effect is outside the model). -/
def log_error (ledger : List ErrorRecord) (now error_type message : String)
    (competitor_name : Option String) : List ErrorRecord :=
  ledger ++
    [{ timestamp := now, error_type := error_type, message := message,
       competitor_name := competitor_name, context := [] }]

/-! ## integration.py -/

/-- Python truthiness of the optional strings flowing through
`process_competitor` (`if not current_text`, `if historical_text`): `None`
and the empty string are falsy. -/
def pyTruthy : Option String → Bool
  | none => false
  | some s => !s.isEmpty

/-- Python `str.startswith`. -/
def pyStartsWith (s pat : String) : Bool := pat.data.isPrefixOf s.data

/-- One entry of the configured `competitors` list (`competitor.get('name',
'Unknown')`, `competitor.get('url', '')`). -/
structure Competitor where
  name : Option String
  url : Option String
deriving Repr, DecidableEq

/-- The outcome of `await self.browser.extract_text_from_url(url)` for one
entity: the external collaborator returns text or `None` — or the attempt
raises, standing for any unexpected exception inside the `try` block of
`process_competitor`, all of which the source catches uniformly. -/
inductive FetchOutcome
  | ret (text : Option String)
  | raises (msg : String)
deriving Repr, DecidableEq

/-- What the baseline store holds for the run, when `find_latest_report`
found a prior report: the `get_baseline_text` extraction (which may itself be
`None`) and the formatted `get_report_date` string. -/
structure HistEnv where
  baselineText : Option String
  baselineDate : String
deriving Repr, DecidableEq

/-- The external world an entity's processing observes. -/
structure CompetitorEnv where
  fetch : FetchOutcome
  hist : Option HistEnv
deriving Repr, DecidableEq

/-- `CompetitorMonitor.process_competitor` (integration.py lines 69-166).
`sim` is the embedding collaborator behind `diff_texts`; `today` the
`datetime.now().strftime('%Y-%m-%d')` stamp; `now` the clock read by the
approval calls.  The freshly created url request is pending, so after
`approve_request` the object's status reads `approved` exactly when that call
returned True — which the guard of line 97 then tests.  The returned
`Option ErrorRecord` is the ledger entry this entity appends (the network and
exception paths are mutually exclusive). -/
def process_competitor (sim : String → String → ℚ) (today : String) (now : ℤ)
    (env : CompetitorEnv) (h : ApprovalHandler) (c : Competitor) :
    CompetitorResult × ApprovalHandler × Option ErrorRecord :=
  let name := c.name.getD "Unknown"
  let url := c.url.getD ""
  let result : CompetitorResult :=
    { competitor_name := some name, url := some url, analysis_date := some today,
      is_strategic_shift := some false, findings := some "Processing..." }
  let q := h.request_url_approval now url
  let a := q.2.approve_request q.1.id now "test"
  let status : ApprovalStatus := if a.1 then .approved else .pending
  if status ≠ .approved then
    ({ result with findings := some "URL browsing not approved" }, a.2, none)
  else
    match env.fetch with
    | .raises msg =>
      ({ result with findings := some ("Error: " ++ msg) }, a.2,
        some { timestamp := today, error_type := "script",
               message := "Error processing " ++ name ++ ": " ++ msg,
               competitor_name := some name, context := [] })
    | .ret current_text =>
      if !pyTruthy current_text then
        ({ result with findings := some "Failed to extract text" }, a.2,
          some { timestamp := today, error_type := "network",
                 message := "Failed to extract text from " ++ url,
                 competitor_name := some name, context := [] })
      else
        let historical_text : Option String :=
          match env.hist with
          | some he => he.baselineText
          | none => none
        let baseline_date : String :=
          match env.hist with
          | some he => he.baselineDate
          | none => "N/A"
        if pyTruthy historical_text then
          let diff_result := diff_texts sim (current_text.getD "") (historical_text.getD "")
          let base :=
            { result with
              similarity_percentage := some diff_result.similarity_percentage,
              shift_classification := some diff_result.shift_classification,
              is_strategic_shift := some diff_result.is_strategic_shift,
              baseline_date := some baseline_date,
              detailed_changes := some ("Similarity: " ++ ratStr diff_result.similarity_percentage ++ "%") }
          if diff_result.is_strategic_shift then
            ({ base with findings := some ("Strategic shift detected! Similarity: " ++
              ratStr diff_result.similarity_percentage ++
              "%. Changes may indicate a change in business strategy.") }, a.2, none)
          else
            ({ base with findings := some ("No major changes detected. Similarity: " ++
              ratStr diff_result.similarity_percentage ++
              "%. Minor updates observed.") }, a.2, none)
        else
          ({ result with
               similarity_percentage := some 0,
               shift_classification := some "new_competitor",
               is_strategic_shift := some false,
               baseline_date := some "N/A",
               detailed_changes := some "No historical data available",
               findings := some "New competitor - no historical data for comparison" },
            a.2, none)

/-- The per-entity loop of `run_workflow` (integration.py lines 198-211):
the `results` and `errors` lists it builds, the ledger records appended while
it runs, and the final approval-handler state.  `i` is the position in the
configured list of the first entity of `cs`; `perEnt` gives each position's
external-world outcome. -/
def run_entities (sim : String → String → ℚ) (today : String) (now : ℤ)
    (perEnt : ℕ → CompetitorEnv) (i : ℕ) (cs : List Competitor) (h : ApprovalHandler) :
    List CompetitorResult × List ErrorDict × List ErrorRecord × ApprovalHandler :=
  match cs with
  | [] => ([], [], [], h)
  | c :: rest =>
    let pr := process_competitor sim today now (perEnt i) h c
    let result := pr.1
    let ed : List ErrorDict :=
      if pyStartsWith (result.findings.getD "") "Error:" then
        [{ competitor_name := some (result.competitor_name.getD "Unknown"),
           error_message := some (result.findings.getD "Unknown error") }]
      else []
    let rec' := run_entities sim today now perEnt (i + 1) rest pr.2.1
    (result :: rec'.1, ed ++ rec'.2.1, pr.2.2.toList ++ rec'.2.2.1, rec'.2.2.2)

/-- Outcome of reading `competitors.json`: the file is absent, the JSON fails
to decode, or it parses to an object — carrying the value of its
`competitors` key when present, plus whether the object has any other key
(which decides the dict's Python truthiness in `if not config`). -/
inductive LoadResult
  | fileMissing
  | jsonError (msg : String)
  | parsed (hasOtherKeys : Bool) (competitors : Option (List Competitor))

/-- The parsed configuration object. -/
structure Config where
  hasOtherKeys : Bool
  competitors : Option (List Competitor)

/-- Python truthiness of the config dict: non-empty. -/
def Config.truthy (cfg : Config) : Bool := cfg.hasOtherKeys || cfg.competitors.isSome

/-- `CompetitorMonitor.load_competitors_config` (integration.py lines 50-67):
the returned optional config and the configuration records it logs. -/
def load_competitors_config (today : String) (lr : LoadResult) :
    Option Config × List ErrorRecord :=
  match lr with
  | .fileMissing => (none, log_error [] today "configuration" "competitors.json not found" none)
  | .jsonError msg =>
    (none, log_error [] today "configuration" ("Invalid JSON in competitors.json: " ++ msg) none)
  | .parsed hasOther comps => (some { hasOtherKeys := hasOther, competitors := comps }, [])

/-- `CompetitorMonitor._generate_error_report` (integration.py lines 230-241),
with the clock date explicit. -/
def _generate_error_report (today error_message : String) : String :=
  "# Intelligence Report: " ++ today ++ "\n\n## Error\n\n" ++ error_message ++
    "\n\n## Error Summary\n\nAll competitors failed to process due to configuration errors.\n"

/-- The external world of one whole run: configuration outcome, the clock,
each entity's fetch/baseline outcome, the embedding collaborator, and whether
the final report write raises. -/
structure RunEnv where
  loadResult : LoadResult
  today : String
  now : ℤ
  perEnt : ℕ → CompetitorEnv
  sim : String → String → ℚ
  saveFails : Option String

/-- `CompetitorMonitor.run_workflow` (integration.py lines 180-228) for a
freshly constructed monitor (its `__init__` builds fresh `ErrorHandler` and
`ApprovalHandler` instances): the returned report text, the final error
ledger, and the final approval-handler state. -/
def run_workflow (env : RunEnv) : String × List ErrorRecord × ApprovalHandler :=
  let lc := load_competitors_config env.today env.loadResult
  match lc.1 with
  | none => (_generate_error_report env.today "Failed to load configuration", lc.2, initialHandler)
  | some cfg =>
    if !cfg.truthy then
      (_generate_error_report env.today "Failed to load configuration", lc.2, initialHandler)
    else
      let competitors := cfg.competitors.getD []
      if competitors.isEmpty then
        (_generate_error_report env.today "No competitors configured", lc.2, initialHandler)
      else
        let re := run_entities env.sim env.today env.now env.perEnt 0 competitors initialHandler
        let report := generate_report env.today re.1 re.2.1
        let ledger :=
          match env.saveFails with
          | some msg =>
            lc.2 ++ re.2.2.1 ++
              [{ timestamp := env.today, error_type := "report",
                 message := "Failed to save report: " ++ msg, competitor_name := none,
                 context := [] }]
          | none => lc.2 ++ re.2.2.1
        (report, ledger, re.2.2.2)

/-! ## Concrete instances used by witnesses and counterexamples -/

/-- A fetch that succeeds with non-empty text, against an empty store. -/
def envFetchOk : CompetitorEnv := { fetch := .ret (some "hello content"), hist := none }

/-- A fetch where the collaborator returns no content. -/
def envFetchNone : CompetitorEnv := { fetch := .ret none, hist := none }

/-- C2's scenario: two entities, the second one's fetch returns no content. -/
def envScenarioC : RunEnv :=
  { loadResult := .parsed false (some
      [{ name := some "Alpha", url := some "http://a" },
       { name := some "Beta", url := some "http://b" }]),
    today := "2026-02-18", now := 0,
    perEnt := fun i => if i = 0 then envFetchOk else envFetchNone,
    sim := fun _ _ => 1, saveFails := none }

/-- A two-entity run used as the C3 witness (same shape as C2's scenario but
its own instance). -/
def envTwoEntities : RunEnv :=
  { loadResult := .parsed false (some
      [{ name := some "Alpha", url := some "http://a" },
       { name := some "Beta", url := some "http://b" }]),
    today := "2026-02-18", now := 0,
    perEnt := fun i => if i = 0 then envFetchOk else envFetchNone,
    sim := fun _ _ => 1, saveFails := none }

/-- C9's counterexample: a parsable configuration whose entity list is empty. -/
def envEmptyList : RunEnv :=
  { loadResult := .parsed false (some []), today := "2026-02-18", now := 0,
    perEnt := fun _ => envFetchOk, sim := fun _ _ => 1, saveFails := none }

/-- C9's witness: the configuration file is missing. -/
def envMissingConfig : RunEnv :=
  { loadResult := .fileMissing, today := "2026-02-18", now := 0,
    perEnt := fun _ => envFetchOk, sim := fun _ _ => 1, saveFails := none }

/-- The approved url request that `process_competitor`'s approval step leaves
in the handler. -/
def approvedUrlRequest (rid : ℕ) (now : ℤ) (url : String) : ApprovalRequest :=
  { id := rid, action_type := "url", description := "Browse URL: " ++ url,
    action_data := [("url", url)], timeout_seconds := 300, status := .approved,
    requested_at := now, approved_at := some now, approver := some "test" }

/-- The id projection of a request list. -/
def ids (l : List ApprovalRequest) : List ℕ := l.map (fun r => r.id)

/-- All requests a handler tracks, in its three collections. -/
def allRequests (h : ApprovalHandler) : List ApprovalRequest :=
  h.pending_requests ++ h.approved_requests ++ h.rejected_requests

/-- The invariant of every reachable `ApprovalHandler` state: tracked ids are
pairwise distinct (each request lives in exactly one collection), each
collection holds only requests in its statuses, and every id is below the
identity counter. -/
structure HandlerInv (h : ApprovalHandler) : Prop where
  nodup : (ids (allRequests h)).Nodup
  pendingStatus : ∀ r ∈ h.pending_requests, r.status = .pending
  approvedStatus : ∀ r ∈ h.approved_requests, r.status = .approved
  rejectedStatus : ∀ r ∈ h.rejected_requests, r.status = .rejected ∨ r.status = .expired
  idsLt : ∀ r ∈ allRequests h, r.id < h.nextId

/-! ## Helper lemmas -/

theorem ratFloor_intCast (z : ℤ) : ratFloor (z : ℚ) = z := by
  simp [ratFloor, Rat.intCast_num, Rat.intCast_den, Int.fdiv_one]

theorem pyRoundHalfEven_intCast (z : ℤ) : pyRoundHalfEven (z : ℚ) = z := by
  unfold pyRoundHalfEven
  rw [ratFloor_intCast]
  norm_num

theorem pyRoundTo_eq_self (n : ℕ) (x : ℚ) (z : ℤ) (hz : x * 10 ^ n = (z : ℚ)) :
    pyRoundTo n x = x := by
  unfold pyRoundTo
  rw [hz, pyRoundHalfEven_intCast, ← hz]
  exact mul_div_cancel_right₀ x (by positivity)

/-! ## C5 -/

/-- C5 (amended): for every cosine similarity `s`, the classifier reports as
`similarity_percentage` the value `(s + 1) / 2 * 100` rounded to two decimal
places (Python `round`), classifies the pair as drift (`Strategic_Shift`)
exactly when the raw similarity is below the fixed threshold 0.80 (the
threshold is never compared against the percentage), and on the anchor
points the rounding is exact: `s = 1 ↦ 100`, `s = 0 ↦ 50`, `s = -1 ↦ 0`. -/
theorem calculate_similarity_spec :
    (∀ s : ℚ,
      (calculate_similarity s).similarity_percentage = pyRoundTo 2 (((s + 1) / 2) * 100) ∧
      (calculate_similarity s).threshold = 80 / 100 ∧
      ((calculate_similarity s).is_strategic_shift = true ↔ s < 80 / 100) ∧
      (calculate_similarity s).shift_classification =
        (if s < 80 / 100 then "Strategic_Shift" else "minor_update")) ∧
    (calculate_similarity 1).similarity_percentage = 100 ∧
    (calculate_similarity 0).similarity_percentage = 50 ∧
    (calculate_similarity (-1)).similarity_percentage = 0 := by
  refine ⟨fun s => ⟨rfl, rfl, by simp [calculate_similarity], by simp [calculate_similarity]⟩,
    ?_, ?_, ?_⟩
  · show pyRoundTo 2 (((1 : ℚ) + 1) / 2 * 100) = 100
    have h : ((1 : ℚ) + 1) / 2 * 100 = ((100 : ℤ) : ℚ) := by norm_num
    rw [h, pyRoundTo_eq_self 2 _ 10000 (by push_cast; norm_num)]
    norm_num
  · show pyRoundTo 2 (((0 : ℚ) + 1) / 2 * 100) = 50
    have h : ((0 : ℚ) + 1) / 2 * 100 = ((50 : ℤ) : ℚ) := by norm_num
    rw [h, pyRoundTo_eq_self 2 _ 5000 (by push_cast; norm_num)]
    norm_num
  · show pyRoundTo 2 (((-1 : ℚ) + 1) / 2 * 100) = 0
    have h : ((-1 : ℚ) + 1) / 2 * 100 = ((0 : ℤ) : ℚ) := by norm_num
    rw [h, pyRoundTo_eq_self 2 _ 0 (by push_cast; norm_num)]
    norm_num

/-- C5 (counterexample): at raw similarity `s = 1/3` the reported percentage
is not `(s + 1) / 2 * 100`: the source rounds the value to two decimal
places (`round(float(similarity_percentage), 2)`, semantic_diff.py line 69),
and `200/3` is not expressible at that precision. -/
theorem calculate_similarity_percentage_rounded_cex :
    (calculate_similarity (1/3)).similarity_percentage ≠ ((1/3 + 1) / 2) * 100 := by
  have h : (calculate_similarity (1/3)).similarity_percentage
      = (pyRoundHalfEven (((1:ℚ)/3 + 1) / 2 * 100 * 10 ^ 2) : ℚ) / 10 ^ 2 := rfl
  rw [h]
  intro hEq
  set z := pyRoundHalfEven (((1:ℚ)/3 + 1) / 2 * 100 * 10 ^ 2) with hz
  have h3 : (z : ℚ) * 3 = 20000 := by
    field_simp at hEq
    linarith
  have h4 : (z * 3 : ℤ) = 20000 := by exact_mod_cast h3
  omega

/-! ## C1 -/

/-- C1 (amended): `generate_report` is a deterministic function of its two
list arguments and the clock date: the clock date it reads appears exactly
once, as the interpolated header date, and everything after the header is
`report_body results errors`, a function of the two arguments alone.  With
the clock fixed, equal inputs therefore give byte-identical output. -/
theorem generate_report_header_date_decomposition (current_date : String)
    (competitor_results : List CompetitorResult) (errors : List ErrorDict) :
    generate_report current_date competitor_results errors =
      "# Intelligence Report: " ++ current_date ++ report_body competitor_results errors := rfl

/-- C1 (counterexample): two invocations with equal `(results, errors)`
arguments but different clock dates produce different report text — the
header date comes from `datetime.now()` (report_generator.py line 109), not
from the inputs. -/
theorem generate_report_equal_inputs_different_clock :
    generate_report "2026-01-01" [] [] ≠ generate_report "2026-01-02" [] [] := by decide

/-! ## C4 -/

theorem findLoop_filter_matching (before : ℕ) (files : List String)
    (best : Option (String × ℕ)) :
    findLoop before files best =
      findLoop before (files.filter (fun f => (parseReportDate f).isSome)) best := by
  induction files generalizing best with
  | nil => rfl
  | cons f rest ih =>
    cases hp : parseReportDate f with
    | none => simp [findLoop, hp, List.filter_cons, ih]
    | some d =>
      rcases best with _ | ⟨bf, bk⟩ <;>
        simp only [findLoop, hp, List.filter_cons, Option.isSome_some, if_true] <;>
        split_ifs <;> simp [findLoop, hp, ih]

theorem findLoop_eq_none_iff (before : ℕ) (files : List String)
    (best : Option (String × ℕ)) :
    findLoop before files best = none ↔
      best = none ∧ ∀ f ∈ files, ∀ d : Date, parseReportDate f = some d → before ≤ d.key := by
  induction files generalizing best with
  | nil => simp [findLoop]
  | cons f rest ih =>
    cases hp : parseReportDate f with
    | none =>
      simp only [findLoop, hp, ih, List.forall_mem_cons]
      constructor
      · rintro ⟨h1, h2⟩
        exact ⟨h1, fun d hd => by simp [hp] at hd, h2⟩
      · rintro ⟨h1, _, h2⟩
        exact ⟨h1, h2⟩
    | some d =>
      by_cases hk : d.key < before
      · have hnotle : ¬ before ≤ d.key := by omega
        rcases best with _ | ⟨bf, bk⟩
        · simp only [findLoop, hp, if_pos hk, ih, List.forall_mem_cons]
          simp [hp, hnotle]
        · simp only [findLoop, hp, if_pos hk, List.forall_mem_cons]
          split_ifs <;> simp [ih, hp, hnotle]
      · have hle : before ≤ d.key := by omega
        rcases best with _ | ⟨bf, bk⟩ <;>
          · simp only [findLoop, hp, if_neg hk, ih, List.forall_mem_cons]
            simp [hp, hle]

theorem findLoop_some_mem (before : ℕ) (files : List String) :
    ∀ best f k, findLoop before files best = some (f, k) →
      best = some (f, k) ∨
        (f ∈ files ∧ ∃ d : Date, parseReportDate f = some d ∧ d.key = k ∧ k < before) := by
  induction files with
  | nil => intro best f k h; exact Or.inl h
  | cons g rest ih =>
    intro best f k h
    cases hp : parseReportDate g with
    | none =>
      simp only [findLoop, hp] at h
      rcases ih best f k h with h1 | ⟨h2, h3⟩
      · exact Or.inl h1
      · exact Or.inr ⟨List.mem_cons_of_mem g h2, h3⟩
    | some d =>
      by_cases hk : d.key < before
      · rcases best with _ | ⟨bf, bk⟩
        · simp only [findLoop, hp, if_pos hk] at h
          rcases ih _ f k h with h1 | ⟨h2, h3⟩
          · rcases Option.some_inj.mp h1 with h1
            obtain ⟨hf, hkey⟩ : g = f ∧ d.key = k := by
              constructor <;> [exact congrArg Prod.fst h1; exact congrArg Prod.snd h1]
            exact Or.inr ⟨hf ▸ List.mem_cons_self g rest, d, hf ▸ hp, hkey, hkey ▸ hk⟩
          · exact Or.inr ⟨List.mem_cons_of_mem g h2, h3⟩
        · simp only [findLoop, hp, if_pos hk] at h
          by_cases hbk : bk < d.key
          · rw [if_pos hbk] at h
            rcases ih _ f k h with h1 | ⟨h2, h3⟩
            · obtain ⟨hf, hkey⟩ : g = f ∧ d.key = k := by
                rcases Option.some_inj.mp h1 with h1
                constructor <;> [exact congrArg Prod.fst h1; exact congrArg Prod.snd h1]
              exact Or.inr ⟨hf ▸ List.mem_cons_self g rest, d, hf ▸ hp, hkey, hkey ▸ hk⟩
            · exact Or.inr ⟨List.mem_cons_of_mem g h2, h3⟩
          · rw [if_neg hbk] at h
            rcases ih _ f k h with h1 | ⟨h2, h3⟩
            · exact Or.inl h1
            · exact Or.inr ⟨List.mem_cons_of_mem g h2, h3⟩
      · simp only [findLoop, hp, if_neg hk] at h
        rcases ih best f k h with h1 | ⟨h2, h3⟩
        · exact Or.inl h1
        · exact Or.inr ⟨List.mem_cons_of_mem g h2, h3⟩

theorem findLoop_some_max (before : ℕ) (files : List String) :
    ∀ best f k, findLoop before files best = some (f, k) →
      (∀ bf bk, best = some (bf, bk) → bk ≤ k) ∧
        ∀ g ∈ files, ∀ e : Date, parseReportDate g = some e → e.key < before → e.key ≤ k := by
  induction files with
  | nil =>
    intro best f k h
    refine ⟨fun bf bk hb => ?_, by simp⟩
    rw [hb] at h
    have : bk = k := congrArg Prod.snd (Option.some_inj.mp h)
    omega
  | cons g rest ih =>
    intro best f k h
    cases hp : parseReportDate g with
    | none =>
      simp only [findLoop, hp] at h
      obtain ⟨hbest, hrest⟩ := ih best f k h
      refine ⟨hbest, ?_⟩
      intro g' hg' e he hke
      rcases List.mem_cons.mp hg' with rfl | hg'
      · rw [hp] at he; exact absurd he (by simp)
      · exact hrest g' hg' e he hke
    | some d =>
      by_cases hk : d.key < before
      · rcases best with _ | ⟨bf, bk⟩
        · simp only [findLoop, hp, if_pos hk] at h
          obtain ⟨hbest, hrest⟩ := ih _ f k h
          have hdk : d.key ≤ k := hbest g d.key rfl
          refine ⟨by simp, ?_⟩
          intro g' hg' e he hke
          rcases List.mem_cons.mp hg' with rfl | hg'
          · rw [hp] at he
            have heq : e = d := (Option.some_inj.mp he).symm
            subst heq
            omega
          · exact hrest g' hg' e he hke
        · simp only [findLoop, hp, if_pos hk] at h
          by_cases hbk : bk < d.key
          · rw [if_pos hbk] at h
            obtain ⟨hbest, hrest⟩ := ih _ f k h
            have hdk : d.key ≤ k := hbest g d.key rfl
            refine ⟨fun bf' bk' hb => ?_, ?_⟩
            · have : bk' = bk := by
                have := Option.some_inj.mp hb
                exact (congrArg Prod.snd this).symm
              omega
            · intro g' hg' e he hke
              rcases List.mem_cons.mp hg' with rfl | hg'
              · rw [hp] at he
                have heq : e = d := (Option.some_inj.mp he).symm
                subst heq
                omega
              · exact hrest g' hg' e he hke
          · rw [if_neg hbk] at h
            obtain ⟨hbest, hrest⟩ := ih _ f k h
            have hbkk : bk ≤ k := hbest bf bk rfl
            refine ⟨fun bf' bk' hb => ?_, ?_⟩
            · have : bk' = bk := by
                have := Option.some_inj.mp hb
                exact (congrArg Prod.snd this).symm
              omega
            · intro g' hg' e he hke
              rcases List.mem_cons.mp hg' with rfl | hg'
              · rw [hp] at he
                have heq : e = d := (Option.some_inj.mp he).symm
                subst heq
                omega
              · exact hrest g' hg' e he hke
      · simp only [findLoop, hp, if_neg hk] at h
        obtain ⟨hbest, hrest⟩ := ih best f k h
        refine ⟨hbest, ?_⟩
        intro g' hg' e he hke
        rcases List.mem_cons.mp hg' with rfl | hg'
        · rw [hp] at he
          have heq : e = d := (Option.some_inj.mp he).symm
          subst heq
          omega
        · exact hrest g' hg' e he hke

/-- C4: `find_latest_report` ignores files whose names do not match the fixed
`YYYY-MM-DD_Intelligence.md` pattern (removing the non-matching files changes
nothing); it returns `none` exactly when the store directory is missing or no
stored parsed date is strictly below the reference key (in particular when
the store is empty or every stored date is ≥ the reference); and when it
returns a file, that file is in the store, parses to a date strictly below
the reference, and its date is the largest parsed date strictly below the
reference. -/
theorem find_latest_report_spec (st : Store) (before : ℕ) :
    (find_latest_report st before =
      find_latest_report ⟨st.dirExists, st.files.filter (fun f => (parseReportDate f).isSome)⟩
        before) ∧
    (find_latest_report st before = none ↔
      st.dirExists = false ∨
        ∀ f ∈ st.files, ∀ d : Date, parseReportDate f = some d → before ≤ d.key) ∧
    (∀ f, find_latest_report st before = some f →
      f ∈ st.files ∧ ∃ d : Date, parseReportDate f = some d ∧ d.key < before ∧
        ∀ g ∈ st.files, ∀ e : Date, parseReportDate g = some e → e.key < before →
          e.key ≤ d.key) := by
  refine ⟨?_, ?_, ?_⟩
  · unfold find_latest_report
    cases st.dirExists <;> simp [findLoop_filter_matching before st.files none]
  · unfold find_latest_report
    cases hd : st.dirExists with
    | false => simp
    | true =>
      simp only [if_true, Option.map_eq_none']
      rw [findLoop_eq_none_iff]
      simp
  · intro f hf
    unfold find_latest_report at hf
    cases hd : st.dirExists with
    | false => rw [hd] at hf; simp at hf
    | true =>
      rw [hd] at hf
      simp only [if_true, Option.map_eq_some'] at hf
      obtain ⟨⟨f', k⟩, hloop, hfst⟩ := hf
      rcases findLoop_some_mem before st.files none f' k hloop with h1 | ⟨hmem, d, hpd, hdk, hkb⟩
      · exact absurd h1 (by simp)
      · obtain ⟨_, hmax⟩ := findLoop_some_max before st.files none f' k hloop
        subst hfst
        refine ⟨hmem, d, hpd, by omega, ?_⟩
        intro g hg e he hke
        have := hmax g hg e he hke
        omega

/-- C4 (witness): on a store holding two matching reports, one junk file and
one future report, with reference date 2026-02-18, the nearest strictly
earlier snapshot 2026-02-15 is returned, is a store member, and dominates
every other qualifying date. -/
theorem find_latest_report_spec_witness :
    find_latest_report
        ⟨true, ["junk.md", "2026-02-10_Intelligence.md", "2026-03-01_Intelligence.md",
          "2026-02-15_Intelligence.md"]⟩ 20260218 = some "2026-02-15_Intelligence.md" ∧
      "2026-02-15_Intelligence.md" ∈
        ["junk.md", "2026-02-10_Intelligence.md", "2026-03-01_Intelligence.md",
          "2026-02-15_Intelligence.md"] ∧
      find_latest_report ⟨true, ["2026-02-18_Intelligence.md"]⟩ 20260218 = none := by
  refine ⟨by decide, ?_, ?_⟩
  · exact ((find_latest_report_spec
      ⟨true, ["junk.md", "2026-02-10_Intelligence.md", "2026-03-01_Intelligence.md",
        "2026-02-15_Intelligence.md"]⟩ 20260218).2.2 "2026-02-15_Intelligence.md"
      (by decide)).1
  · exact (find_latest_report_spec ⟨true, ["2026-02-18_Intelligence.md"]⟩ 20260218).2.1.mpr
      (Or.inr (by decide))

/-! ## process_competitor helper lemmas -/

theorem approve_fresh (h : ApprovalHandler) (now : ℤ) (url : String)
    (hp : h.pending_requests = []) :
    (h.request_url_approval now url).2.approve_request
        (h.request_url_approval now url).1.id now "test" =
      (true,
        { h with
          nextId := h.nextId + 1,
          approved_requests := h.approved_requests ++ [approvedUrlRequest h.nextId now url] }) := by
  obtain ⟨nid, pend, app, rej⟩ := h
  simp only at hp
  subst hp
  simp [ApprovalHandler.request_url_approval, ApprovalHandler.newRequest,
    ApprovalHandler.approve_request, List.find?, ApprovalRequest.approve,
    List.eraseP, approvedUrlRequest]

theorem process_competitor_approved_branch (sim : String → String → ℚ) (today : String)
    (now : ℤ) (env : CompetitorEnv) (h : ApprovalHandler) (c : Competitor)
    (hp : h.pending_requests = []) :
    process_competitor sim today now env h c =
      (let name := c.name.getD "Unknown"
       let url := c.url.getD ""
       let result : CompetitorResult :=
         { competitor_name := some name, url := some url, analysis_date := some today,
           is_strategic_shift := some false, findings := some "Processing..." }
       let h2 : ApprovalHandler :=
         { h with
           nextId := h.nextId + 1,
           approved_requests := h.approved_requests ++ [approvedUrlRequest h.nextId now url] }
       match env.fetch with
       | .raises msg =>
         ({ result with findings := some ("Error: " ++ msg) }, h2,
           some { timestamp := today, error_type := "script",
                  message := "Error processing " ++ name ++ ": " ++ msg,
                  competitor_name := some name, context := [] })
       | .ret current_text =>
         if !pyTruthy current_text then
           ({ result with findings := some "Failed to extract text" }, h2,
             some { timestamp := today, error_type := "network",
                    message := "Failed to extract text from " ++ url,
                    competitor_name := some name, context := [] })
         else
           let historical_text : Option String :=
             match env.hist with
             | some he => he.baselineText
             | none => none
           let baseline_date : String :=
             match env.hist with
             | some he => he.baselineDate
             | none => "N/A"
           if pyTruthy historical_text then
             let diff_result := diff_texts sim (current_text.getD "") (historical_text.getD "")
             let base :=
               { result with
                 similarity_percentage := some diff_result.similarity_percentage,
                 shift_classification := some diff_result.shift_classification,
                 is_strategic_shift := some diff_result.is_strategic_shift,
                 baseline_date := some baseline_date,
                 detailed_changes := some ("Similarity: " ++ ratStr diff_result.similarity_percentage ++ "%") }
             if diff_result.is_strategic_shift then
               ({ base with findings := some ("Strategic shift detected! Similarity: " ++
                 ratStr diff_result.similarity_percentage ++
                 "%. Changes may indicate a change in business strategy.") }, h2, none)
             else
               ({ base with findings := some ("No major changes detected. Similarity: " ++
                 ratStr diff_result.similarity_percentage ++
                 "%. Minor updates observed.") }, h2, none)
           else
             ({ result with
                  similarity_percentage := some 0,
                  shift_classification := some "new_competitor",
                  is_strategic_shift := some false,
                  baseline_date := some "N/A",
                  detailed_changes := some "No historical data available",
                  findings := some "New competitor - no historical data for comparison" },
               h2, none)) := by
  unfold process_competitor
  simp only [approve_fresh h now (c.url.getD "") hp]
  rfl

theorem process_competitor_name (sim : String → String → ℚ) (today : String)
    (now : ℤ) (env : CompetitorEnv) (h : ApprovalHandler) (c : Competitor)
    (hp : h.pending_requests = []) :
    (process_competitor sim today now env h c).1.competitor_name =
      some (c.name.getD "Unknown") := by
  rw [process_competitor_approved_branch sim today now env h c hp]
  rcases env.fetch with t | msg <;> rcases env.hist with _ | he <;> dsimp only <;>
    (try split_ifs) <;> rfl

theorem process_competitor_handler (sim : String → String → ℚ) (today : String)
    (now : ℤ) (env : CompetitorEnv) (h : ApprovalHandler) (c : Competitor)
    (hp : h.pending_requests = []) :
    (process_competitor sim today now env h c).2.1 =
      { h with
        nextId := h.nextId + 1,
        approved_requests := h.approved_requests ++
          [approvedUrlRequest h.nextId now (c.url.getD "")] } := by
  rw [process_competitor_approved_branch sim today now env h c hp]
  rcases env.fetch with t | msg <;> rcases env.hist with _ | he <;> dsimp only <;>
    (try split_ifs) <;> rfl

theorem process_competitor_fetch_empty (sim : String → String → ℚ) (today : String)
    (now : ℤ) (env : CompetitorEnv) (h : ApprovalHandler) (c : Competitor)
    (tOpt : Option String) (hp : h.pending_requests = [])
    (hf : env.fetch = .ret tOpt) (hempty : pyTruthy tOpt = false) :
    process_competitor sim today now env h c =
      ({ competitor_name := some (c.name.getD "Unknown"), url := some (c.url.getD ""),
         analysis_date := some today, is_strategic_shift := some false,
         findings := some "Failed to extract text" },
       { h with
         nextId := h.nextId + 1,
         approved_requests := h.approved_requests ++
           [approvedUrlRequest h.nextId now (c.url.getD "")] },
       some { timestamp := today, error_type := "network",
              message := "Failed to extract text from " ++ c.url.getD "",
              competitor_name := some (c.name.getD "Unknown"), context := [] }) := by
  rw [process_competitor_approved_branch sim today now env h c hp, hf]
  dsimp only
  rw [hempty]
  rfl

theorem process_competitor_no_baseline (sim : String → String → ℚ) (today : String)
    (now : ℤ) (env : CompetitorEnv) (h : ApprovalHandler) (c : Competitor) (t : String)
    (hp : h.pending_requests = []) (hf : env.fetch = .ret (some t)) (ht : t ≠ "")
    (hb : env.hist = none ∨ ∃ he, env.hist = some he ∧ pyTruthy he.baselineText = false) :
    process_competitor sim today now env h c =
      ({ competitor_name := some (c.name.getD "Unknown"), url := some (c.url.getD ""),
         analysis_date := some today, similarity_percentage := some 0,
         shift_classification := some "new_competitor",
         findings := some "New competitor - no historical data for comparison",
         baseline_date := some "N/A",
         detailed_changes := some "No historical data available",
         is_strategic_shift := some false },
       { h with
         nextId := h.nextId + 1,
         approved_requests := h.approved_requests ++
           [approvedUrlRequest h.nextId now (c.url.getD "")] },
       none) := by
  rw [process_competitor_approved_branch sim today now env h c hp, hf]
  dsimp only
  have htruthy : pyTruthy (some t) = true := by
    have : t.isEmpty = false := by
      rcases hh : t.isEmpty with _ | _
      · rfl
      · exact absurd ((String.isEmpty_iff t).mp hh) ht
    simp [pyTruthy, this]
  rw [htruthy]
  rcases hb with hb | ⟨he, hb, hbt⟩
  · rw [hb]
    rfl
  · rw [hb]
    dsimp only
    rw [hbt]
    rfl

theorem process_competitor_fetch_ok_no_error (sim : String → String → ℚ) (today : String)
    (now : ℤ) (env : CompetitorEnv) (h : ApprovalHandler) (c : Competitor) (t : String)
    (hp : h.pending_requests = []) (hf : env.fetch = .ret (some t)) (ht : t ≠ "") :
    (process_competitor sim today now env h c).2.2 = none ∧
      pyStartsWith ((process_competitor sim today now env h c).1.findings.getD "")
        "Error:" = false := by
  rw [process_competitor_approved_branch sim today now env h c hp, hf]
  dsimp only
  have htruthy : pyTruthy (some t) = true := by
    have : t.isEmpty = false := by
      rcases hh : t.isEmpty with _ | _
      · rfl
      · exact absurd ((String.isEmpty_iff t).mp hh) ht
    simp [pyTruthy, this]
  rw [if_neg (show ¬ ((!pyTruthy (some t)) = true) by rw [htruthy]; simp)]
  rcases env.hist with _ | he
  · exact ⟨rfl, rfl⟩
  · dsimp only
    split_ifs <;> exact ⟨rfl, rfl⟩

/-! ## run_entities helper lemmas -/

theorem run_entities_length (sim : String → String → ℚ) (today : String) (now : ℤ)
    (perEnt : ℕ → CompetitorEnv) :
    ∀ (cs : List Competitor) (i : ℕ) (h : ApprovalHandler),
      (run_entities sim today now perEnt i cs h).1.length = cs.length := by
  intro cs
  induction cs with
  | nil => intro i h; rfl
  | cons c rest ih =>
    intro i h
    simp only [run_entities, List.length_cons]
    rw [ih]

theorem run_entities_pending (sim : String → String → ℚ) (today : String) (now : ℤ)
    (perEnt : ℕ → CompetitorEnv) :
    ∀ (cs : List Competitor) (i : ℕ) (h : ApprovalHandler),
      h.pending_requests = [] →
      (run_entities sim today now perEnt i cs h).2.2.2.pending_requests = [] := by
  intro cs
  induction cs with
  | nil => intro i h hp; exact hp
  | cons c rest ih =>
    intro i h hp
    simp only [run_entities]
    apply ih
    rw [process_competitor_handler sim today now (perEnt i) h c hp]
    exact hp

theorem run_entities_names (sim : String → String → ℚ) (today : String) (now : ℤ)
    (perEnt : ℕ → CompetitorEnv) :
    ∀ (cs : List Competitor) (i : ℕ) (h : ApprovalHandler),
      h.pending_requests = [] →
      (run_entities sim today now perEnt i cs h).1.map (fun r => r.competitor_name) =
        cs.map (fun c => some (c.name.getD "Unknown")) := by
  intro cs
  induction cs with
  | nil => intro i h hp; rfl
  | cons c rest ih =>
    intro i h hp
    simp only [run_entities, List.map_cons]
    rw [process_competitor_name sim today now (perEnt i) h c hp,
      ih (i + 1) _
        (by rw [process_competitor_handler sim today now (perEnt i) h c hp]; exact hp)]

/-! ## C6 -/

/-- C6: whenever no usable prior baseline text exists for an entity (no prior
report was found, or the stored report yields no baseline text) and the fetch
returned content, the orchestrator records classification `new_competitor`
with similarity percentage 0 and drift flag false, appends no error record,
and produces a result identical under any two embedding collaborators — the
classifier's comparison path is never consulted, so this case never yields a
drift classification. -/
theorem no_baseline_new_competitor (sim sim2 : String → String → ℚ) (today : String)
    (now : ℤ) (env : CompetitorEnv) (h : ApprovalHandler) (c : Competitor) (t : String)
    (hp : h.pending_requests = []) (hf : env.fetch = .ret (some t)) (ht : t ≠ "")
    (hb : env.hist = none ∨ ∃ he, env.hist = some he ∧ pyTruthy he.baselineText = false) :
    (process_competitor sim today now env h c).1.shift_classification =
        some "new_competitor" ∧
      (process_competitor sim today now env h c).1.similarity_percentage = some 0 ∧
      (process_competitor sim today now env h c).1.is_strategic_shift = some false ∧
      (process_competitor sim today now env h c).2.2 = none ∧
      process_competitor sim today now env h c = process_competitor sim2 today now env h c := by
  rw [process_competitor_no_baseline sim today now env h c t hp hf ht hb,
    process_competitor_no_baseline sim2 today now env h c t hp hf ht hb]
  exact ⟨rfl, rfl, rfl, rfl, rfl⟩

/-- C6 (witness): a concrete entity with fetched text and no stored report is
classified `new_competitor`, and two different embedding collaborators give
the same result. -/
theorem no_baseline_new_competitor_witness :
    (process_competitor (fun _ _ => 1) "2026-02-18" 0 envFetchOk initialHandler
        { name := some "Alpha", url := some "http://a" }).1.shift_classification =
      some "new_competitor" ∧
    process_competitor (fun _ _ => 1) "2026-02-18" 0 envFetchOk initialHandler
        { name := some "Alpha", url := some "http://a" } =
      process_competitor (fun _ _ => 0) "2026-02-18" 0 envFetchOk initialHandler
        { name := some "Alpha", url := some "http://a" } := by
  have h := no_baseline_new_competitor (fun _ _ => 1) (fun _ _ => 0) "2026-02-18" 0
    envFetchOk initialHandler { name := some "Alpha", url := some "http://a" }
    "hello content" rfl rfl (by decide) (Or.inl rfl)
  exact ⟨h.1, h.2.2.2.2⟩

/-! ## C3 -/

/-- C3: for every present, parsable configuration with a non-empty entity
list `cs`, the run completes with the single compiled report, which is
`generate_report` applied to the per-entity results list; that list has
exactly `cs.length` entries, one per configured entity in configuration order
(each carrying its entity's name), whatever each entity's fetch or
classification outcome is (`env.perEnt` ranges over all outcomes, including
no-content returns and raised exceptions). -/
theorem report_sections_count_eq_configured (env : RunEnv) (k : Bool)
    (cs : List Competitor) (hc : env.loadResult = .parsed k (some cs)) (hne : cs ≠ []) :
    (run_workflow env).1 =
      generate_report env.today
        (run_entities env.sim env.today env.now env.perEnt 0 cs initialHandler).1
        (run_entities env.sim env.today env.now env.perEnt 0 cs initialHandler).2.1 ∧
    (run_entities env.sim env.today env.now env.perEnt 0 cs initialHandler).1.length =
      cs.length ∧
    (run_entities env.sim env.today env.now env.perEnt 0 cs initialHandler).1.map
        (fun r => r.competitor_name) =
      cs.map (fun c => some (c.name.getD "Unknown")) := by
  refine ⟨?_, run_entities_length env.sim env.today env.now env.perEnt cs 0 initialHandler,
    run_entities_names env.sim env.today env.now env.perEnt cs 0 initialHandler rfl⟩
  rcases cs with _ | ⟨c, rest⟩
  · exact absurd rfl hne
  · unfold run_workflow
    rw [hc]
    dsimp only [load_competitors_config]
    rw [if_neg (by simp [Config.truthy])]
    rfl

/-- C3 (witness): a two-entity run (second fetch yielding no content)
produces one report over exactly two result entries, named in configuration
order. -/
theorem report_sections_count_eq_configured_witness :
    (run_workflow envTwoEntities).1 =
      generate_report envTwoEntities.today
        (run_entities envTwoEntities.sim envTwoEntities.today envTwoEntities.now
          envTwoEntities.perEnt 0
          [{ name := some "Alpha", url := some "http://a" },
           { name := some "Beta", url := some "http://b" }] initialHandler).1
        (run_entities envTwoEntities.sim envTwoEntities.today envTwoEntities.now
          envTwoEntities.perEnt 0
          [{ name := some "Alpha", url := some "http://a" },
           { name := some "Beta", url := some "http://b" }] initialHandler).2.1 ∧
    (run_entities envTwoEntities.sim envTwoEntities.today envTwoEntities.now
      envTwoEntities.perEnt 0
      [{ name := some "Alpha", url := some "http://a" },
       { name := some "Beta", url := some "http://b" }] initialHandler).1.length = 2 := by
  have h := report_sections_count_eq_configured envTwoEntities false
    [{ name := some "Alpha", url := some "http://a" },
     { name := some "Beta", url := some "http://b" }] rfl (List.cons_ne_nil _ _)
  exact ⟨h.1, h.2.1⟩

/-! ## C2 -/

/-- C2 (amended): in a run over two configured entities where the first
fetch succeeds with non-empty content and the second returns no content,
exactly one report is produced, holding one result entry per entity in order;
the fetch failure is appended to the error ledger as a `network`-kind record
naming the second entity, and the second entity's findings read `Failed to
extract text`; but the `errors` list forwarded to the report compiler stays
empty (only findings starting with `Error:` are forwarded, integration.py
line 205), so the report's error-summary section is the fixed all-successful
text and does not name the second entity. -/
theorem second_entity_fetch_failure_report (env : RunEnv) (k : Bool) (a b : Competitor)
    (ta : String) (hc : env.loadResult = .parsed k (some [a, b]))
    (h0 : (env.perEnt 0).fetch = .ret (some ta)) (hta : ta ≠ "")
    (h1 : (env.perEnt 1).fetch = .ret none) :
    (run_workflow env).1 =
      generate_report env.today
        (run_entities env.sim env.today env.now env.perEnt 0 [a, b] initialHandler).1
        (run_entities env.sim env.today env.now env.perEnt 0 [a, b] initialHandler).2.1 ∧
    (run_entities env.sim env.today env.now env.perEnt 0 [a, b] initialHandler).2.1 = [] ∧
    (run_entities env.sim env.today env.now env.perEnt 0 [a, b] initialHandler).2.2.1 =
      [{ timestamp := env.today, error_type := "network",
         message := "Failed to extract text from " ++ b.url.getD "",
         competitor_name := some (b.name.getD "Unknown"), context := [] }] ∧
    (run_entities env.sim env.today env.now env.perEnt 0 [a, b] initialHandler).1.map
        (fun r => r.competitor_name) =
      [some (a.name.getD "Unknown"), some (b.name.getD "Unknown")] ∧
    ((run_entities env.sim env.today env.now env.perEnt 0 [a, b] initialHandler).1.drop 1).map
        (fun r => r.findings) = [some "Failed to extract text"] ∧
    _generate_error_section
        (run_entities env.sim env.today env.now env.perEnt 0 [a, b] initialHandler).2.1 =
      "## Error Summary\n\nAll competitors were processed successfully with no errors.\n" := by
  have hp0 : initialHandler.pending_requests = [] := rfl
  have pc0 := process_competitor_fetch_ok_no_error env.sim env.today env.now (env.perEnt 0)
    initialHandler a ta hp0 h0 hta
  have hh0 := process_competitor_handler env.sim env.today env.now (env.perEnt 0)
    initialHandler a hp0
  have hp1 : (process_competitor env.sim env.today env.now (env.perEnt 0) initialHandler
      a).2.1.pending_requests = [] := by
    rw [hh0]
    rfl
  have h1' : (env.perEnt (0 + 1)).fetch = .ret none := h1
  have pc1 := process_competitor_fetch_empty env.sim env.today env.now (env.perEnt (0 + 1))
    ((process_competitor env.sim env.today env.now (env.perEnt 0) initialHandler a).2.1)
    b none hp1 h1' rfl
  have h21 : (run_entities env.sim env.today env.now env.perEnt 0 [a, b]
      initialHandler).2.1 = [] := by
    simp only [run_entities, pc1, pc0.2]
    rfl
  have h221 : (run_entities env.sim env.today env.now env.perEnt 0 [a, b]
      initialHandler).2.2.1 =
      [{ timestamp := env.today, error_type := "network",
         message := "Failed to extract text from " ++ b.url.getD "",
         competitor_name := some (b.name.getD "Unknown"), context := [] }] := by
    simp only [run_entities, pc1, pc0.1]
    rfl
  refine ⟨?_, h21, h221, ?_, ?_, ?_⟩
  · unfold run_workflow
    rw [hc]
    dsimp only [load_competitors_config]
    rw [if_neg (by simp [Config.truthy])]
    rfl
  · exact run_entities_names env.sim env.today env.now env.perEnt [a, b] 0 initialHandler rfl
  · simp only [run_entities, pc1]
    rfl
  · rw [h21]
    rfl

/-- C2 (witness): the amended statement at a concrete two-entity run. -/
theorem second_entity_fetch_failure_report_witness :
    (run_entities envScenarioC.sim envScenarioC.today envScenarioC.now envScenarioC.perEnt 0
      [{ name := some "Alpha", url := some "http://a" },
       { name := some "Beta", url := some "http://b" }] initialHandler).2.1 = [] ∧
    (run_entities envScenarioC.sim envScenarioC.today envScenarioC.now envScenarioC.perEnt 0
      [{ name := some "Alpha", url := some "http://a" },
       { name := some "Beta", url := some "http://b" }] initialHandler).2.2.1 =
      [{ timestamp := "2026-02-18", error_type := "network",
         message := "Failed to extract text from http://b",
         competitor_name := some "Beta", context := [] }] := by
  have h := second_entity_fetch_failure_report envScenarioC false
    { name := some "Alpha", url := some "http://a" }
    { name := some "Beta", url := some "http://b" }
    "hello content" rfl rfl (by decide) rfl
  exact ⟨h.2.1, h.2.2.1⟩

/-- C2 (counterexample): in the concrete scenario — two entities, second
fetch returning no content — the error ledger does hold the `network` record
naming Beta, yet the report is compiled with an empty errors list and its
error-summary section is the constant all-successful text, which names no
entity: the claim that the report's error summary contains a network-kind
entry naming the second entity is false. -/
theorem fetch_failure_missing_from_error_summary :
    (run_workflow envScenarioC).2.1 =
      [{ timestamp := "2026-02-18", error_type := "network",
         message := "Failed to extract text from http://b",
         competitor_name := some "Beta", context := [] }] ∧
    (run_workflow envScenarioC).1 =
      generate_report "2026-02-18"
        (run_entities envScenarioC.sim "2026-02-18" 0 envScenarioC.perEnt 0
          [{ name := some "Alpha", url := some "http://a" },
           { name := some "Beta", url := some "http://b" }] initialHandler).1 [] ∧
    _generate_error_section [] =
      "## Error Summary\n\nAll competitors were processed successfully with no errors.\n" := by
  exact ⟨rfl, rfl, rfl⟩

/-! ## C9 -/

/-- C9 (amended): a missing or JSON-unparsable configuration aborts the run
before any entity is processed (the approval handler is left in its initial
state), logs exactly one `configuration`-kind error record, and returns the
fixed error-only report with zero entity sections; an absent or empty entity
list (a falsy or competitor-less parsed config) likewise aborts with an
error-only report and an untouched handler, but logs no error record at
all. -/
theorem config_failure_report_spec (env : RunEnv) :
    (env.loadResult = .fileMissing →
      run_workflow env =
        (_generate_error_report env.today "Failed to load configuration",
         [{ timestamp := env.today, error_type := "configuration",
            message := "competitors.json not found", competitor_name := none, context := [] }],
         initialHandler)) ∧
    (∀ msg, env.loadResult = .jsonError msg →
      run_workflow env =
        (_generate_error_report env.today "Failed to load configuration",
         [{ timestamp := env.today, error_type := "configuration",
            message := "Invalid JSON in competitors.json: " ++ msg, competitor_name := none,
            context := [] }],
         initialHandler)) ∧
    (env.loadResult = .parsed false none →
      run_workflow env =
        (_generate_error_report env.today "Failed to load configuration", [], initialHandler)) ∧
    (env.loadResult = .parsed true none →
      run_workflow env =
        (_generate_error_report env.today "No competitors configured", [], initialHandler)) ∧
    (∀ k, env.loadResult = .parsed k (some []) →
      run_workflow env =
        (_generate_error_report env.today "No competitors configured", [], initialHandler)) := by
  refine ⟨?_, ?_, ?_, ?_, ?_⟩
  · intro hm
    unfold run_workflow
    rw [hm]
    rfl
  · intro msg hm
    unfold run_workflow
    rw [hm]
    rfl
  · intro hm
    unfold run_workflow
    rw [hm]
    rfl
  · intro hm
    unfold run_workflow
    rw [hm]
    rfl
  · intro k hm
    unfold run_workflow
    rw [hm]
    rcases k with _ | _ <;> rfl

/-- C9 (witness): with the configuration file missing, the run aborts with
the error-only report and a single `configuration` error record. -/
theorem config_failure_report_spec_witness :
    run_workflow envMissingConfig =
      ("# Intelligence Report: 2026-02-18\n\n## Error\n\nFailed to load configuration\n\n## Error Summary\n\nAll competitors failed to process due to configuration errors.\n",
       [{ timestamp := "2026-02-18", error_type := "configuration",
          message := "competitors.json not found", competitor_name := none, context := [] }],
       initialHandler) := by
  exact (config_failure_report_spec envMissingConfig).1 rfl

/-- C9 (counterexample): a parsable configuration whose entity list is empty
aborts the run with the error-only report, but its error ledger stays empty:
no `configuration`-kind ErrorRecord is logged, contradicting the claim that
exactly one is. -/
theorem empty_competitor_list_logs_no_error :
    (run_workflow envEmptyList).1 =
      _generate_error_report "2026-02-18" "No competitors configured" ∧
    (run_workflow envEmptyList).2.1 = [] := by
  exact ⟨rfl, rfl⟩

/-! ## Approval-handler invariant machinery -/

theorem find?_eraseP_perm {α : Type} (p : α → Bool) :
    ∀ (l : List α) (a : α), l.find? p = some a → List.Perm (a :: l.eraseP p) l := by
  intro l
  induction l with
  | nil => intro a h; simp at h
  | cons x xs ih =>
    intro a h
    by_cases hx : p x
    · rw [List.find?_cons_of_pos _ hx] at h
      obtain rfl : x = a := Option.some_inj.mp h
      rw [List.eraseP_cons_of_pos hx]
    · rw [List.find?_cons_of_neg _ hx] at h
      rw [List.eraseP_cons_of_neg hx]
      exact (List.Perm.swap x a _).trans ((ih a h).cons x)

theorem perm_move_first {α : Type} (a : α) (l₁ l₂ l₃ : List α) :
    List.Perm ((l₁ ++ [a]) ++ l₂ ++ l₃) (a :: (l₁ ++ l₂ ++ l₃)) := by
  have h1 : (l₁ ++ [a]) ++ l₂ ++ l₃ = l₁ ++ a :: (l₂ ++ l₃) := by
    simp [List.append_assoc]
  rw [h1, List.append_assoc]
  exact List.perm_middle

theorem perm_move_middle {α : Type} (a : α) (l₁ l₂ l₃ : List α) :
    List.Perm (l₁ ++ (l₂ ++ [a]) ++ l₃) (a :: (l₁ ++ l₂ ++ l₃)) := by
  have h1 : l₁ ++ (l₂ ++ [a]) ++ l₃ = l₁ ++ (l₂ ++ a :: l₃) := by
    simp [List.append_assoc]
  rw [h1]
  have h2 : List.Perm (l₂ ++ a :: l₃) (a :: (l₂ ++ l₃)) := List.perm_middle
  have h3 : List.Perm (l₁ ++ (l₂ ++ a :: l₃)) (l₁ ++ a :: (l₂ ++ l₃)) :=
    List.Perm.append_left l₁ h2
  refine h3.trans ?_
  have h4 : List.Perm (l₁ ++ a :: (l₂ ++ l₃)) (a :: (l₁ ++ (l₂ ++ l₃))) := List.perm_middle
  rw [List.append_assoc]
  exact h4

theorem perm_move_last {α : Type} (a : α) (l₁ l₂ l₃ : List α) :
    List.Perm (l₁ ++ l₂ ++ (l₃ ++ [a])) (a :: (l₁ ++ l₂ ++ l₃)) := by
  have h1 : l₁ ++ l₂ ++ (l₃ ++ [a]) = (l₁ ++ l₂ ++ l₃) ++ [a] := by
    rw [List.append_assoc (l₁ ++ l₂) l₃ [a]]
  rw [h1]
  exact List.perm_append_comm

theorem perm_sweep {α : Type} (p₁ e l₂ l₃ : List α) :
    List.Perm (p₁ ++ l₂ ++ (l₃ ++ e)) ((p₁ ++ e) ++ l₂ ++ l₃) := by
  have h1 : p₁ ++ l₂ ++ (l₃ ++ e) = p₁ ++ (l₂ ++ (l₃ ++ e)) := by
    rw [List.append_assoc]
  have h2 : (p₁ ++ e) ++ l₂ ++ l₃ = p₁ ++ (e ++ (l₂ ++ l₃)) := by
    simp [List.append_assoc]
  rw [h1, h2]
  refine List.Perm.append_left p₁ ?_
  have h3 : l₂ ++ (l₃ ++ e) = (l₂ ++ l₃) ++ e := by rw [List.append_assoc]
  rw [h3]
  exact List.perm_append_comm

theorem ids_append (l₁ l₂ : List ApprovalRequest) : ids (l₁ ++ l₂) = ids l₁ ++ ids l₂ :=
  List.map_append _ _ _

theorem ids_map_expire (l : List ApprovalRequest) :
    ids (l.map ApprovalRequest.expire) = ids l := by
  simp only [ids, List.map_map]
  rfl

theorem id_eq_of_nodup (P : List ApprovalRequest) :
    (ids P).Nodup → ∀ x ∈ P, ∀ y ∈ P, x.id = y.id → x = y := by
  induction P with
  | nil => intro _ x hx; exact absurd hx (List.not_mem_nil x)
  | cons a rest ih =>
    intro hnd x hx y hy hid
    have hnd' : (ids rest).Nodup ∧ a.id ∉ ids rest := by
      simp only [ids, List.map_cons, List.nodup_cons] at hnd
      exact ⟨hnd.2, hnd.1⟩
    rcases List.mem_cons.mp hx with hx1 | hx1 <;> rcases List.mem_cons.mp hy with hy1 | hy1
    · rw [hx1, hy1]
    · exfalso
      apply hnd'.2
      rw [hx1] at hid
      rw [hid]
      exact List.mem_map.mpr ⟨y, hy1, rfl⟩
    · exfalso
      apply hnd'.2
      rw [hy1] at hid
      rw [← hid]
      exact List.mem_map.mpr ⟨x, hx1, rfl⟩
    · exact ih hnd'.1 x hx1 y hy1 hid

theorem find?_eq_of_mem_nodup (P : List ApprovalRequest) :
    (ids P).Nodup → ∀ r ∈ P, P.find? (fun x => x.id == r.id) = some r := by
  induction P with
  | nil => intro _ r hr; exact absurd hr (List.not_mem_nil r)
  | cons a rest ih =>
    intro hnd r hr
    by_cases ha : (a.id == r.id) = true
    · simp only [List.find?, ha]
      have : a = r := id_eq_of_nodup _ hnd a (List.mem_cons_self a rest) r hr
        (by simpa using ha)
      rw [this]
    · have ha' : (a.id == r.id) = false := by
        rcases hb : (a.id == r.id) with _ | _
        · rfl
        · exact absurd hb ha
      simp only [List.find?, ha']
      have hrr : r ∈ rest := by
        rcases List.mem_cons.mp hr with hr1 | hrr
        · rw [hr1] at ha
          exact absurd (by simp) ha
        · exact hrr
      have hnd' : (ids rest).Nodup := by
        simp only [ids, List.map_cons, List.nodup_cons] at hnd
        exact hnd.2
      exact ih hnd' r hrr

theorem handlerInv_initial : HandlerInv initialHandler := by
  constructor <;> simp [allRequests, ids, initialHandler]

theorem handlerInv_newRequest (h : ApprovalHandler) (now : ℤ) (ty dsc : String)
    (ad : List (String × String)) (hi : HandlerInv h) :
    HandlerInv (h.newRequest now ty dsc ad).2 := by
  obtain ⟨hnd, hps, has, hrs, hlt⟩ := hi
  refine ⟨?_, ?_, has, hrs, ?_⟩
  · have hperm := perm_move_first
      (⟨h.nextId, ty, dsc, ad, 300, .pending, now, none, none, none⟩ : ApprovalRequest)
      h.pending_requests h.approved_requests h.rejected_requests
    have hidperm := hperm.map (fun r => r.id)
    simp only [ApprovalHandler.newRequest, allRequests, ids]
    rw [List.Perm.nodup_iff hidperm]
    simp only [List.map_cons, List.nodup_cons]
    constructor
    · intro hmem
      simp only [List.mem_map] at hmem
      obtain ⟨x, hx, hxid⟩ := hmem
      have := hlt x hx
      omega
    · exact hnd
  · intro r hr
    simp only [ApprovalHandler.newRequest] at hr
    rcases List.mem_append.mp hr with hr | hr
    · exact hps r hr
    · simp only [List.mem_singleton] at hr
      rw [hr]
  · intro r hr
    simp only [ApprovalHandler.newRequest, allRequests] at hr ⊢
    rcases List.mem_append.mp hr with hr | hr
    · rcases List.mem_append.mp hr with hr | hr
      · rcases List.mem_append.mp hr with hr | hr
        · have := hlt r (by simp [allRequests, hr])
          omega
        · simp only [List.mem_singleton] at hr
          rw [hr]
          exact Nat.lt_succ_self _
      · have := hlt r (by simp [allRequests, hr])
        omega
    · have := hlt r (by simp [allRequests, hr])
      omega

theorem approve_request_none (h : ApprovalHandler) (rid : ℕ) (now : ℤ) (ap : String)
    (hfind : h.pending_requests.find? (fun x => x.id == rid) = none) :
    h.approve_request rid now ap = (false, h) := by
  unfold ApprovalHandler.approve_request
  rw [hfind]

theorem reject_request_none (h : ApprovalHandler) (rid : ℕ) (now : ℤ) (ap : String)
    (hfind : h.pending_requests.find? (fun x => x.id == rid) = none) :
    h.reject_request rid now ap = (false, h) := by
  unfold ApprovalHandler.reject_request
  rw [hfind]

theorem approve_request_found (h : ApprovalHandler) (rid : ℕ) (now : ℤ) (ap : String)
    (r : ApprovalRequest)
    (hfind : h.pending_requests.find? (fun x => x.id == rid) = some r)
    (hstat : r.status = .pending) :
    h.approve_request rid now ap =
      (true,
        { h with
          pending_requests := h.pending_requests.eraseP (fun x => x.id == rid),
          approved_requests := h.approved_requests ++
            [{ r with status := .approved, approved_at := some now, approver := some ap }] }) := by
  unfold ApprovalHandler.approve_request
  rw [hfind]
  have happrove : r.approve now ap =
      (true, { r with status := .approved, approved_at := some now, approver := some ap }) := by
    unfold ApprovalRequest.approve
    rw [if_neg (by rw [hstat]; simp)]
  dsimp only
  rw [happrove]
  rfl

theorem reject_request_found (h : ApprovalHandler) (rid : ℕ) (now : ℤ) (ap : String)
    (r : ApprovalRequest)
    (hfind : h.pending_requests.find? (fun x => x.id == rid) = some r)
    (hstat : r.status = .pending) :
    h.reject_request rid now ap =
      (true,
        { h with
          pending_requests := h.pending_requests.eraseP (fun x => x.id == rid),
          rejected_requests := h.rejected_requests ++
            [{ r with status := .rejected, rejected_at := some now, approver := some ap }] }) := by
  unfold ApprovalHandler.reject_request
  rw [hfind]
  have hreject : r.reject now ap =
      (true, { r with status := .rejected, rejected_at := some now, approver := some ap }) := by
    unfold ApprovalRequest.reject
    rw [if_neg (by rw [hstat]; simp)]
  dsimp only
  rw [hreject]
  rfl

theorem handlerInv_approve_request (h : ApprovalHandler) (rid : ℕ) (now : ℤ) (ap : String)
    (hi : HandlerInv h) : HandlerInv (h.approve_request rid now ap).2 := by
  cases hfind : h.pending_requests.find? (fun x => x.id == rid) with
  | none =>
    rw [approve_request_none h rid now ap hfind]
    exact hi
  | some r =>
    have hrP : r ∈ h.pending_requests := List.mem_of_find?_eq_some hfind
    have hstat : r.status = .pending := hi.pendingStatus r hrP
    rw [approve_request_found h rid now ap r hfind hstat]
    obtain ⟨hnd, hps, has, hrs, hlt⟩ := hi
    have hperm1 : List.Perm
        (r :: h.pending_requests.eraseP (fun x => x.id == rid)) h.pending_requests :=
      find?_eraseP_perm _ _ r hfind
    refine ⟨?_, ?_, ?_, hrs, ?_⟩
    · have hmid := perm_move_middle
        ({ r with status := .approved, approved_at := some now, approver := some ap })
        (h.pending_requests.eraseP (fun x => x.id == rid)) h.approved_requests
        h.rejected_requests
      have h1 := hmid.map (fun x => x.id)
      have hpermAll : List.Perm (allRequests h)
          (r :: (h.pending_requests.eraseP (fun x => x.id == rid) ++ h.approved_requests ++
            h.rejected_requests)) := by
        unfold allRequests
        exact ((hperm1.symm.append_right h.approved_requests).append_right h.rejected_requests)
      have h2 := hpermAll.map (fun x => x.id)
      have h3 : List.Perm
          (ids (allRequests
            { h with
              pending_requests := h.pending_requests.eraseP (fun x => x.id == rid),
              approved_requests := h.approved_requests ++
                [{ r with status := .approved, approved_at := some now, approver := some ap }] }))
          (ids (allRequests h)) := by
        unfold allRequests ids
        exact h1.trans h2.symm
      exact (List.Perm.nodup_iff h3).mpr hnd
    · intro x hx
      exact hps x (List.mem_of_mem_eraseP hx)
    · intro x hx
      rcases List.mem_append.mp hx with hx | hx
      · exact has x hx
      · simp only [List.mem_singleton] at hx
        rw [hx]
    · intro x hx
      unfold allRequests at hx
      rcases List.mem_append.mp hx with hx | hx
      · rcases List.mem_append.mp hx with hx | hx
        · exact hlt x (by
            unfold allRequests
            exact List.mem_append.mpr (Or.inl (List.mem_append.mpr
              (Or.inl (List.mem_of_mem_eraseP hx)))))
        · rcases List.mem_append.mp hx with hx | hx
          · exact hlt x (by
              unfold allRequests
              exact List.mem_append.mpr (Or.inl (List.mem_append.mpr (Or.inr hx))))
          · simp only [List.mem_singleton] at hx
            rw [hx]
            exact hlt r (by
              unfold allRequests
              exact List.mem_append.mpr (Or.inl (List.mem_append.mpr (Or.inl hrP))))
      · exact hlt x (by
          unfold allRequests
          exact List.mem_append.mpr (Or.inr hx))

theorem handlerInv_reject_request (h : ApprovalHandler) (rid : ℕ) (now : ℤ) (ap : String)
    (hi : HandlerInv h) : HandlerInv (h.reject_request rid now ap).2 := by
  cases hfind : h.pending_requests.find? (fun x => x.id == rid) with
  | none =>
    rw [reject_request_none h rid now ap hfind]
    exact hi
  | some r =>
    have hrP : r ∈ h.pending_requests := List.mem_of_find?_eq_some hfind
    have hstat : r.status = .pending := hi.pendingStatus r hrP
    rw [reject_request_found h rid now ap r hfind hstat]
    obtain ⟨hnd, hps, has, hrs, hlt⟩ := hi
    have hperm1 : List.Perm
        (r :: h.pending_requests.eraseP (fun x => x.id == rid)) h.pending_requests :=
      find?_eraseP_perm _ _ r hfind
    refine ⟨?_, ?_, has, ?_, ?_⟩
    · have hmid := perm_move_last
        ({ r with status := .rejected, rejected_at := some now, approver := some ap })
        (h.pending_requests.eraseP (fun x => x.id == rid)) h.approved_requests
        h.rejected_requests
      have h1 := hmid.map (fun x => x.id)
      have hpermAll : List.Perm (allRequests h)
          (r :: (h.pending_requests.eraseP (fun x => x.id == rid) ++ h.approved_requests ++
            h.rejected_requests)) := by
        unfold allRequests
        exact ((hperm1.symm.append_right h.approved_requests).append_right h.rejected_requests)
      have h2 := hpermAll.map (fun x => x.id)
      have h3 : List.Perm
          (ids (allRequests
            { h with
              pending_requests := h.pending_requests.eraseP (fun x => x.id == rid),
              rejected_requests := h.rejected_requests ++
                [{ r with status := .rejected, rejected_at := some now, approver := some ap }] }))
          (ids (allRequests h)) := by
        unfold allRequests ids
        exact h1.trans h2.symm
      exact (List.Perm.nodup_iff h3).mpr hnd
    · intro x hx
      exact hps x (List.mem_of_mem_eraseP hx)
    · intro x hx
      rcases List.mem_append.mp hx with hx | hx
      · exact hrs x hx
      · simp only [List.mem_singleton] at hx
        rw [hx]
        exact Or.inl rfl
    · intro x hx
      unfold allRequests at hx
      rcases List.mem_append.mp hx with hx | hx
      · rcases List.mem_append.mp hx with hx | hx
        · exact hlt x (by
            unfold allRequests
            exact List.mem_append.mpr (Or.inl (List.mem_append.mpr
              (Or.inl (List.mem_of_mem_eraseP hx)))))
        · exact hlt x (by
            unfold allRequests
            exact List.mem_append.mpr (Or.inl (List.mem_append.mpr (Or.inr hx))))
      · rcases List.mem_append.mp hx with hx | hx
        · exact hlt x (by
            unfold allRequests
            exact List.mem_append.mpr (Or.inr hx))
        · simp only [List.mem_singleton] at hx
          rw [hx]
          exact hlt r (by
            unfold allRequests
            exact List.mem_append.mpr (Or.inl (List.mem_append.mpr (Or.inl hrP))))

theorem mark_id (r : ApprovalRequest) (now : ℤ) :
    (if r.is_expired now then r.expire else r).id = r.id := by
  split <;> rfl

theorem sweep_filter (P : List ApprovalRequest) (now : ℤ)
    (hP : ∀ r ∈ P, r.status = .pending) :
    (P.map (fun r => if r.is_expired now then r.expire else r)).filter
        (fun r => r.status == .pending) =
      P.filter (fun r => !(r.is_expired now)) := by
  induction P with
  | nil => rfl
  | cons x xs ih =>
    have hx := hP x (List.mem_cons_self x xs)
    have ihx := ih (fun r hr => hP r (List.mem_cons_of_mem x hr))
    by_cases he : x.is_expired now = true
    · simp only [List.map_cons, List.filter_cons, he, if_true, ihx]
      rfl
    · simp only [List.map_cons, List.filter_cons, ihx]
      rw [if_neg he]
      have hbe : (x.status == ApprovalStatus.pending) = true := by rw [hx]; rfl
      have hnb : (!(x.is_expired now)) = true := by
        rcases hb : x.is_expired now with _ | _
        · rfl
        · exact absurd hb he
      rw [if_pos hbe, if_pos hnb]

theorem get_pending_request_snd (h : ApprovalHandler) (now : ℤ) :
    (h.get_pending_request now).2 =
      if h.pending_requests.isEmpty then h
      else
        { h with
          pending_requests :=
            (h.pending_requests.map (fun r => if r.is_expired now then r.expire else r)).filter
              (fun r => r.status == .pending),
          rejected_requests := h.rejected_requests ++
            (h.pending_requests.filter (fun r => r.is_expired now)).map
              ApprovalRequest.expire } := by
  unfold ApprovalHandler.get_pending_request
  by_cases hemp : h.pending_requests.isEmpty = true
  · rw [if_pos hemp, if_pos hemp]
  · rw [if_neg hemp, if_neg hemp]
    dsimp only
    split <;> rfl

theorem handlerInv_get_pending (h : ApprovalHandler) (now : ℤ) (hi : HandlerInv h) :
    HandlerInv (h.get_pending_request now).2 := by
  rw [get_pending_request_snd]
  by_cases hemp : h.pending_requests.isEmpty = true
  · rw [if_pos hemp]
    exact hi
  · rw [if_neg hemp]
    obtain ⟨hnd, hps, has, hrs, hlt⟩ := hi
    rw [sweep_filter h.pending_requests now hps]
    have hpart : List.Perm
        (h.pending_requests.filter (fun r => !(r.is_expired now)) ++
          h.pending_requests.filter (fun r => r.is_expired now)) h.pending_requests := by
      have hcong : h.pending_requests.filter (fun x => !!(x.is_expired now)) =
          h.pending_requests.filter (fun x => x.is_expired now) :=
        List.filter_congr (by intro x _; simp)
      have := List.filter_append_perm (fun r => !(r.is_expired now)) h.pending_requests
      rwa [hcong] at this
    refine ⟨?_, ?_, has, ?_, ?_⟩
    · have hsweep := perm_sweep
        (h.pending_requests.filter (fun r => !(r.is_expired now)))
        ((h.pending_requests.filter (fun r => r.is_expired now)).map ApprovalRequest.expire)
        h.approved_requests h.rejected_requests
      have h1 := hsweep.map (fun x => x.id)
      have h2 : List.Perm
          (ids ((h.pending_requests.filter (fun r => !(r.is_expired now)) ++
              (h.pending_requests.filter (fun r => r.is_expired now)).map
                ApprovalRequest.expire) ++
            h.approved_requests ++ h.rejected_requests))
          (ids (allRequests h)) := by
        have e1 : ids ((h.pending_requests.filter (fun r => !(r.is_expired now)) ++
              (h.pending_requests.filter (fun r => r.is_expired now)).map
                ApprovalRequest.expire) ++
            h.approved_requests ++ h.rejected_requests) =
            (ids (h.pending_requests.filter (fun r => !(r.is_expired now))) ++
              ids (h.pending_requests.filter (fun r => r.is_expired now))) ++
            ids h.approved_requests ++ ids h.rejected_requests := by
          rw [ids_append, ids_append, ids_append, ids_map_expire]
        have e2 : ids (allRequests h) =
            (ids h.pending_requests ++ ids h.approved_requests) ++ ids h.rejected_requests := by
          unfold allRequests
          rw [ids_append, ids_append]
        rw [e1, e2]
        refine List.Perm.append_right _ ?_
        have e3 : ids (h.pending_requests.filter (fun r => !(r.is_expired now))) ++
            ids (h.pending_requests.filter (fun r => r.is_expired now)) =
            ids (h.pending_requests.filter (fun r => !(r.is_expired now)) ++
              h.pending_requests.filter (fun r => r.is_expired now)) := by
          rw [ids_append]
        refine List.Perm.append_right _ ?_
        rw [e3]
        exact hpart.map _
      unfold allRequests ids
      unfold ids at h1 h2
      exact (List.Perm.nodup_iff (h1.trans h2)).mpr hnd
    · intro x hx
      exact hps x (List.mem_of_mem_filter hx)
    · intro x hx
      rcases List.mem_append.mp hx with hx | hx
      · exact hrs x hx
      · obtain ⟨y, _, hy2⟩ := List.mem_map.mp hx
        rw [← hy2]
        exact Or.inr rfl
    · intro x hx
      unfold allRequests at hx
      rcases List.mem_append.mp hx with hx | hx
      · rcases List.mem_append.mp hx with hx | hx
        · exact hlt x (by
            unfold allRequests
            exact List.mem_append.mpr (Or.inl (List.mem_append.mpr
              (Or.inl (List.mem_of_mem_filter hx)))))
        · exact hlt x (by
            unfold allRequests
            exact List.mem_append.mpr (Or.inl (List.mem_append.mpr (Or.inr hx))))
      · rcases List.mem_append.mp hx with hx | hx
        · exact hlt x (by
            unfold allRequests
            exact List.mem_append.mpr (Or.inr hx))
        · obtain ⟨y, hy1, hy2⟩ := List.mem_map.mp hx
          have hylt : y.id < h.nextId := hlt y (by
            unfold allRequests
            exact List.mem_append.mpr (Or.inl (List.mem_append.mpr
              (Or.inl (List.mem_of_mem_filter hy1)))))
          rw [← hy2]
          exact hylt

theorem handlerInv_clear (h : ApprovalHandler) : HandlerInv h.clear_requests := by
  constructor <;> simp [ApprovalHandler.clear_requests, allRequests, ids]

theorem handlerInv_step (h : ApprovalHandler) (op : HandlerOp) (hi : HandlerInv h) :
    HandlerInv (stepHandler h op) := by
  cases op with
  | terminal now c =>
    exact handlerInv_newRequest h now "terminal"
      ("Execute terminal command: " ++ c.take 50 ++ "...") [("command", c)] hi
  | file now p a =>
    exact handlerInv_newRequest h now "file" (a ++ " file: " ++ p)
      [("file_path", p), ("action", a)] hi
  | url now u =>
    exact handlerInv_newRequest h now "url" ("Browse URL: " ++ u) [("url", u)] hi
  | approveOp now rid ap =>
    exact handlerInv_approve_request h rid now ap hi
  | rejectOp now rid ap =>
    exact handlerInv_reject_request h rid now ap hi
  | getPending now =>
    exact handlerInv_get_pending h now hi
  | clear =>
    exact handlerInv_clear h

theorem handlerInv_run (ops : List HandlerOp) :
    ∀ h : ApprovalHandler, HandlerInv h → HandlerInv (runHandler h ops) := by
  induction ops with
  | nil => intro h hi; exact hi
  | cons op rest ih => intro h hi; exact ih _ (handlerInv_step h op hi)

theorem handlerInv_reachable (ops : List HandlerOp) :
    HandlerInv (runHandler initialHandler ops) :=
  handlerInv_run ops initialHandler handlerInv_initial

theorem pending_id_not_resolved (h : ApprovalHandler) (hi : HandlerInv h)
    (r : ApprovalRequest)
    (hr : r ∈ h.approved_requests ∨ r ∈ h.rejected_requests) :
    ∀ x ∈ h.pending_requests, ¬ (x.id == r.id) = true := by
  intro x hx hbe
  have hxid : x.id = r.id := by simpa using hbe
  have hnd' : ((ids h.pending_requests ++ ids h.approved_requests) ++
      ids h.rejected_requests).Nodup := by
    have := hi.nodup
    unfold allRequests at this
    rwa [ids_append, ids_append] at this
  obtain ⟨hnd1, _, hdisj2⟩ := List.nodup_append.mp hnd'
  obtain ⟨_, _, hdisj1⟩ := List.nodup_append.mp hnd1
  rcases hr with hr | hr
  · exact hdisj1 (List.mem_map.mpr ⟨x, hx, rfl⟩)
      (by rw [hxid]; exact List.mem_map.mpr ⟨r, hr, rfl⟩)
  · exact hdisj2 (List.mem_append.mpr (Or.inl (List.mem_map.mpr ⟨x, hx, rfl⟩)))
      (by rw [hxid]; exact List.mem_map.mpr ⟨r, hr, rfl⟩)

theorem pending_ids_nodup (h : ApprovalHandler) (hi : HandlerInv h) :
    (ids h.pending_requests).Nodup := by
  have hnd' : ((ids h.pending_requests ++ ids h.approved_requests) ++
      ids h.rejected_requests).Nodup := by
    have := hi.nodup
    unfold allRequests at this
    rwa [ids_append, ids_append] at this
  exact ((List.nodup_append.mp (List.nodup_append.mp hnd').1).1)

/-! ## C7 -/

/-- C7: in every reachable handler state, resolving a request that is no
longer pending (it sits in the approved or rejected/expired collection)
returns false and mutates nothing — neither the request object
(`ApprovalRequest.approve`/`reject` return `(false, r)`) nor the handler's
collections (`approve_request`/`reject_request` return `(false, h)`); while
resolving a request still in the pending collection returns true, moves it
out of pending, and records the approved/rejected status, the resolver and
the resolution timestamp. -/
theorem resolve_request_spec (ops : List HandlerOp) (rid : ℕ) (now : ℤ) (approver : String) :
    (∀ r, (r ∈ (runHandler initialHandler ops).approved_requests ∨
        r ∈ (runHandler initialHandler ops).rejected_requests) → r.id = rid →
      r.approve now approver = (false, r) ∧ r.reject now approver = (false, r) ∧
      (runHandler initialHandler ops).approve_request rid now approver =
        (false, runHandler initialHandler ops) ∧
      (runHandler initialHandler ops).reject_request rid now approver =
        (false, runHandler initialHandler ops)) ∧
    (∀ r ∈ (runHandler initialHandler ops).pending_requests, r.id = rid →
      (runHandler initialHandler ops).approve_request rid now approver =
        (true,
          { runHandler initialHandler ops with
            pending_requests := (runHandler initialHandler ops).pending_requests.eraseP
              (fun x => x.id == rid),
            approved_requests := (runHandler initialHandler ops).approved_requests ++
              [{ r with status := .approved, approved_at := some now, approver := some approver }] }) ∧
      (runHandler initialHandler ops).reject_request rid now approver =
        (true,
          { runHandler initialHandler ops with
            pending_requests := (runHandler initialHandler ops).pending_requests.eraseP
              (fun x => x.id == rid),
            rejected_requests := (runHandler initialHandler ops).rejected_requests ++
              [{ r with status := .rejected, rejected_at := some now, approver := some approver }] })) := by
  have hi := handlerInv_reachable ops
  constructor
  · intro r hr hrid
    have hstat : r.status ≠ .pending := by
      rcases hr with hr | hr
      · rw [hi.approvedStatus r hr]
        simp
      · rcases hi.rejectedStatus r hr with hs | hs <;> rw [hs] <;> simp
    have hfind : (runHandler initialHandler ops).pending_requests.find?
        (fun x => x.id == rid) = none := by
      rw [List.find?_eq_none]
      intro x hx
      rw [← hrid]
      exact pending_id_not_resolved _ hi r hr x hx
    refine ⟨?_, ?_, approve_request_none _ rid now approver hfind,
      reject_request_none _ rid now approver hfind⟩
    · unfold ApprovalRequest.approve
      rw [if_pos hstat]
    · unfold ApprovalRequest.reject
      rw [if_pos hstat]
  · intro r hr hrid
    subst hrid
    have hfind : (runHandler initialHandler ops).pending_requests.find?
        (fun x => x.id == r.id) = some r :=
      find?_eq_of_mem_nodup _ (pending_ids_nodup _ hi) r hr
    have hstat : r.status = .pending := hi.pendingStatus r hr
    exact ⟨approve_request_found _ r.id now approver r hfind hstat,
      reject_request_found _ r.id now approver r hfind hstat⟩

/-- C7 (witness): one created request is pending and resolves to approved;
after resolving, resolving again returns false and changes nothing. -/
theorem resolve_request_spec_witness :
    (runHandler initialHandler [HandlerOp.url 0 "http://a"]).approve_request 0 5 "alice" =
      (true,
        { runHandler initialHandler [HandlerOp.url 0 "http://a"] with
          pending_requests :=
            (runHandler initialHandler [HandlerOp.url 0 "http://a"]).pending_requests.eraseP
              (fun x => x.id == 0),
          approved_requests :=
            (runHandler initialHandler [HandlerOp.url 0 "http://a"]).approved_requests ++
              [{ id := 0, action_type := "url", description := "Browse URL: http://a",
                 action_data := [("url", "http://a")], timeout_seconds := 300,
                 status := .approved, requested_at := 0, approved_at := some 5,
                 rejected_at := none, approver := some "alice" }] }) ∧
    (runHandler initialHandler
        [HandlerOp.url 0 "http://a", HandlerOp.approveOp 5 0 "alice"]).approve_request
        0 9 "bob" =
      (false, runHandler initialHandler
        [HandlerOp.url 0 "http://a", HandlerOp.approveOp 5 0 "alice"]) := by
  constructor
  · have h := (resolve_request_spec [HandlerOp.url 0 "http://a"] 0 5 "alice").2
      ⟨0, "url", "Browse URL: http://a", [("url", "http://a")], 300, .pending, 0,
        none, none, none⟩ (by decide) rfl
    exact h.1
  · have h := (resolve_request_spec
      [HandlerOp.url 0 "http://a", HandlerOp.approveOp 5 0 "alice"] 0 9 "bob").1
      ⟨0, "url", "Browse URL: http://a", [("url", "http://a")], 300, .approved, 0,
        some 5, none, some "alice"⟩ (Or.inl (by decide)) rfl
    exact h.2.2.1

/-! ## C8 -/

theorem get_pending_request_fst (h : ApprovalHandler) (now : ℤ)
    (hne : h.pending_requests.isEmpty = false) :
    (h.get_pending_request now).1 =
      ((h.pending_requests.map (fun r => if r.is_expired now then r.expire else r)).filter
        (fun r => r.status == .pending)).head? := by
  unfold ApprovalHandler.get_pending_request
  rw [if_neg (by simp [hne])]
  dsimp only
  rcases hm : (h.pending_requests.map
      (fun r => if r.is_expired now then r.expire else r)).filter
      (fun r => r.status == .pending) with _ | ⟨r, t⟩ <;> rw [hm] <;> rfl

theorem get_pending_some_id (h : ApprovalHandler) (now : ℤ) (y : ApprovalRequest)
    (hy : (h.get_pending_request now).1 = some y) : y.id ∈ ids h.pending_requests := by
  by_cases hemp : h.pending_requests.isEmpty = true
  · unfold ApprovalHandler.get_pending_request at hy
    rw [if_pos hemp] at hy
    cases hy
  · have hne : h.pending_requests.isEmpty = false := by
      rcases hb : h.pending_requests.isEmpty with _ | _
      · rfl
      · exact absurd hb hemp
    rw [get_pending_request_fst h now hne] at hy
    have hmem := List.mem_of_mem_head? hy
    have hmem2 := List.mem_of_mem_filter hmem
    obtain ⟨o, ho, hoy⟩ := List.mem_map.mp hmem2
    have : y.id = o.id := by rw [← hoy]; exact mark_id o now
    rw [this]
    exact List.mem_map.mpr ⟨o, ho, rfl⟩

theorem step_nextId_le (h : ApprovalHandler) (op : HandlerOp) :
    h.nextId ≤ (stepHandler h op).nextId := by
  cases op with
  | terminal now c => exact Nat.le_succ _
  | file now p a => exact Nat.le_succ _
  | url now u => exact Nat.le_succ _
  | approveOp now rid ap =>
    show h.nextId ≤ (h.approve_request rid now ap).2.nextId
    unfold ApprovalHandler.approve_request
    rcases hfind : h.pending_requests.find? (fun x => x.id == rid) with _ | r
    · rw [hfind]
    · rw [hfind]
      dsimp only
      split <;> exact Nat.le_refl _
  | rejectOp now rid ap =>
    show h.nextId ≤ (h.reject_request rid now ap).2.nextId
    unfold ApprovalHandler.reject_request
    rcases hfind : h.pending_requests.find? (fun x => x.id == rid) with _ | r
    · rw [hfind]
    · rw [hfind]
      dsimp only
      split <;> exact Nat.le_refl _
  | getPending now =>
    show h.nextId ≤ (h.get_pending_request now).2.nextId
    rw [get_pending_request_snd]
    split <;> exact Nat.le_refl _
  | clear => exact Nat.le_refl _

theorem step_pending_not_mem (h : ApprovalHandler) (op : HandlerOp) (rid : ℕ)
    (hlt : rid < h.nextId) (hni : rid ∉ ids h.pending_requests) :
    rid ∉ ids (stepHandler h op).pending_requests := by
  have hcreate : ∀ now ty dsc ad, rid ∉ ids (h.newRequest now ty dsc ad).2.pending_requests := by
    intro now ty dsc ad hmem
    unfold ApprovalHandler.newRequest ids at hmem
    rw [List.map_append] at hmem
    rcases List.mem_append.mp hmem with hmem | hmem
    · exact hni hmem
    · simp only [List.map_cons, List.map_nil, List.mem_singleton] at hmem
      omega
  have heraseP : ∀ p : ApprovalRequest → Bool,
      rid ∉ ids (h.pending_requests.eraseP p) := by
    intro p hmem
    obtain ⟨x, hx, hxid⟩ := List.mem_map.mp hmem
    exact hni (List.mem_map.mpr ⟨x, List.mem_of_mem_eraseP hx, hxid⟩)
  cases op with
  | terminal now c => exact hcreate now _ _ _
  | file now p a => exact hcreate now _ _ _
  | url now u => exact hcreate now _ _ _
  | approveOp now r ap =>
    show rid ∉ ids (h.approve_request r now ap).2.pending_requests
    unfold ApprovalHandler.approve_request
    rcases hfind : h.pending_requests.find? (fun x => x.id == r) with _ | x
    · rw [hfind]
      exact hni
    · rw [hfind]
      dsimp only
      split
      · exact heraseP _
      · exact hni
  | rejectOp now r ap =>
    show rid ∉ ids (h.reject_request r now ap).2.pending_requests
    unfold ApprovalHandler.reject_request
    rcases hfind : h.pending_requests.find? (fun x => x.id == r) with _ | x
    · rw [hfind]
      exact hni
    · rw [hfind]
      dsimp only
      split
      · exact heraseP _
      · exact hni
  | getPending now =>
    show rid ∉ ids (h.get_pending_request now).2.pending_requests
    rw [get_pending_request_snd]
    split
    · exact hni
    · intro hmem
      obtain ⟨x, hx, hxid⟩ := List.mem_map.mp hmem
      have hx2 := List.mem_of_mem_filter hx
      obtain ⟨o, ho, hoy⟩ := List.mem_map.mp hx2
      have : x.id = o.id := by rw [← hoy]; exact mark_id o now
      exact hni (List.mem_map.mpr ⟨o, ho, by rw [← this, hxid]⟩)
  | clear =>
    intro hmem
    simp [stepHandler, ApprovalHandler.clear_requests, ids] at hmem

theorem pending_ids_preserved (rid : ℕ) (ops : List HandlerOp) :
    ∀ h : ApprovalHandler, rid < h.nextId → rid ∉ ids h.pending_requests →
      rid < (runHandler h ops).nextId ∧ rid ∉ ids (runHandler h ops).pending_requests := by
  induction ops with
  | nil => intro h h1 h2; exact ⟨h1, h2⟩
  | cons op rest ih =>
    intro h h1 h2
    exact ih (stepHandler h op) (Nat.lt_of_lt_of_le h1 (step_nextId_le h op))
      (step_pending_not_mem h op rid h1 h2)

/-- C8: in every reachable handler state, a pending request whose elapsed
time exceeds its timeout is, on the next `get_pending_request` call, not the
returned request; it lands in the rejected collection with status `expired`
and disappears from the pending collection — and after any further sequence
of operations, `get_pending_request` never returns a request with its id
again. -/
theorem expired_request_never_returned (ops : List HandlerOp) (r : ApprovalRequest)
    (now : ℤ) (hr : r ∈ (runHandler initialHandler ops).pending_requests)
    (hex : r.is_expired now = true) :
    (∀ x, ((runHandler initialHandler ops).get_pending_request now).1 = some x →
      x.id ≠ r.id) ∧
    (∃ x ∈ ((runHandler initialHandler ops).get_pending_request now).2.rejected_requests,
      x.id = r.id ∧ x.status = .expired) ∧
    r.id ∉ ids ((runHandler initialHandler ops).get_pending_request now).2.pending_requests ∧
    (∀ (ops2 : List HandlerOp) (now2 : ℤ) (y : ApprovalRequest),
      ((runHandler ((runHandler initialHandler ops).get_pending_request now).2
          ops2).get_pending_request now2).1 = some y →
      y.id ≠ r.id) := by
  have hi := handlerInv_reachable ops
  have hne : (runHandler initialHandler ops).pending_requests.isEmpty = false := by
    rcases hb : (runHandler initialHandler ops).pending_requests with _ | ⟨a, t⟩
    · rw [hb] at hr
      exact absurd hr (List.not_mem_nil r)
    · rfl
  have hnotin : r.id ∉ ids
      ((runHandler initialHandler ops).get_pending_request now).2.pending_requests := by
    rw [get_pending_request_snd]
    rw [if_neg (by simp [hne])]
    intro hmem
    simp only [sweep_filter _ now hi.pendingStatus] at hmem
    obtain ⟨x, hx, hxid⟩ := List.mem_map.mp hmem
    obtain ⟨hxP, hxexp⟩ := List.mem_filter.mp hx
    have hxr : x = r := id_eq_of_nodup _ (pending_ids_nodup _ hi) x hxP r hr hxid
    rw [hxr, hex] at hxexp
    simp at hxexp
  refine ⟨?_, ?_, hnotin, ?_⟩
  · intro x hx hxid
    have hmem := get_pending_some_id _ now x hx
    -- x is in the new pending collection, which excludes r.id
    rw [get_pending_request_fst _ now hne] at hx
    have hmem2 := List.mem_of_mem_head? hx
    rw [sweep_filter _ now hi.pendingStatus] at hmem2
    obtain ⟨hxP, hxexp⟩ := List.mem_filter.mp hmem2
    have hxr : x = r := id_eq_of_nodup _ (pending_ids_nodup _ hi) x hxP r hr hxid
    rw [hxr, hex] at hxexp
    simp at hxexp
  · refine ⟨r.expire, ?_, rfl, rfl⟩
    rw [get_pending_request_snd]
    rw [if_neg (by simp [hne])]
    refine List.mem_append.mpr (Or.inr ?_)
    exact List.mem_map.mpr ⟨r, List.mem_filter.mpr ⟨hr, hex⟩, rfl⟩
  · intro ops2 now2 y hy
    have hlt : r.id < (runHandler initialHandler ops).nextId :=
      hi.idsLt r (by
        unfold allRequests
        exact List.mem_append.mpr (Or.inl (List.mem_append.mpr (Or.inl hr))))
    have hlt2 : r.id <
        ((runHandler initialHandler ops).get_pending_request now).2.nextId := by
      rw [get_pending_request_snd]
      split <;> exact hlt
    have hpres := pending_ids_preserved r.id ops2
      ((runHandler initialHandler ops).get_pending_request now).2 hlt2 hnotin
    intro hyid
    apply hpres.2
    rw [← hyid]
    exact get_pending_some_id _ now2 y hy

set_option maxRecDepth 10000 in
/-- C8 (witness): a request created at time 0 with the default 300 s timeout
is expired at time 1000: the sweep moves it to the rejected collection as
`expired`, `get_pending_request` does not return it, and it is gone from the
pending set. -/
theorem expired_request_never_returned_witness :
    (∀ x, ((runHandler initialHandler [HandlerOp.terminal 0 "cmd"]).get_pending_request
        1000).1 = some x → x.id ≠ 0) ∧
    (∃ x ∈ ((runHandler initialHandler
        [HandlerOp.terminal 0 "cmd"]).get_pending_request 1000).2.rejected_requests,
      x.id = 0 ∧ x.status = .expired) := by
  have h := expired_request_never_returned [HandlerOp.terminal 0 "cmd"]
    ⟨0, "terminal", "Execute terminal command: cmd...", [("command", "cmd")], 300,
      .pending, 0, none, none, none⟩ 1000 (by decide) (by decide)
  exact ⟨fun x hx => h.1 x hx, h.2.1⟩

/-! ## C10 -/

theorem count_split (l : List ApprovalRequest)
    (hl : ∀ r ∈ l, r.status = .rejected ∨ r.status = .expired) :
    l.length = (l.filter (fun r => r.status == .rejected)).length +
      (l.filter (fun r => r.status == .expired)).length := by
  induction l with
  | nil => rfl
  | cons x xs ih =>
    have hx := hl x (List.mem_cons_self x xs)
    have ihx := ih (fun r hr => hl r (List.mem_cons_of_mem x hr))
    rcases hx with hx | hx
    · have c1 : (x.status == ApprovalStatus.rejected) = true := by rw [hx]; rfl
      have c2 : (x.status == ApprovalStatus.expired) = false := by rw [hx]; rfl
      rw [List.filter_cons, List.filter_cons, if_pos c1, if_neg (by simp [c2])]
      simp only [List.length_cons]
      rw [ihx]
      omega
    · have c1 : (x.status == ApprovalStatus.rejected) = false := by rw [hx]; rfl
      have c2 : (x.status == ApprovalStatus.expired) = true := by rw [hx]; rfl
      rw [List.filter_cons, List.filter_cons, if_neg (by simp [c1]), if_pos c2]
      simp only [List.length_cons]
      rw [ihx]
      omega

/-- C10: in every reachable handler state, the tracked ids are pairwise
distinct — each request lives in exactly one of the pending / approved /
rejected collections; every request in the rejected collection carries
status `rejected` or `expired` (the expiry sweep of `get_pending_request`
appends each newly expired request, status `expired`, to
`rejected_requests`); consequently `get_rejected_count` returns the number
of rejected requests plus the number of expired ones, not the rejected ones
alone. -/
theorem handler_partition_invariant (ops : List HandlerOp) :
    (ids (allRequests (runHandler initialHandler ops))).Nodup ∧
    (∀ r ∈ (runHandler initialHandler ops).rejected_requests,
      r.status = .rejected ∨ r.status = .expired) ∧
    (∀ now : ℤ, ((runHandler initialHandler ops).get_pending_request now).2.rejected_requests =
      (runHandler initialHandler ops).rejected_requests ++
        ((runHandler initialHandler ops).pending_requests.filter
          (fun r => r.is_expired now)).map ApprovalRequest.expire) ∧
    (runHandler initialHandler ops).get_rejected_count =
      ((runHandler initialHandler ops).rejected_requests.filter
        (fun r => r.status == .rejected)).length +
      ((runHandler initialHandler ops).rejected_requests.filter
        (fun r => r.status == .expired)).length := by
  have hi := handlerInv_reachable ops
  refine ⟨hi.nodup, hi.rejectedStatus, ?_, count_split _ hi.rejectedStatus⟩
  intro now
  rw [get_pending_request_snd]
  by_cases hemp : (runHandler initialHandler ops).pending_requests.isEmpty = true
  · rw [if_pos hemp]
    have hnil : (runHandler initialHandler ops).pending_requests = [] :=
      List.isEmpty_iff.mp hemp
    rw [hnil]
    simp
  · rw [if_neg hemp]

set_option maxRecDepth 10000 in
/-- C10 (witness): after one request expires via the sweep, the rejected
collection holds it with status `expired`, and `get_rejected_count` counts
it. -/
theorem handler_partition_invariant_witness :
    ((⟨0, "terminal", "Execute terminal command: cmd...", [("command", "cmd")], 300,
        .expired, 0, none, none, none⟩ : ApprovalRequest).status = .rejected ∨
      (⟨0, "terminal", "Execute terminal command: cmd...", [("command", "cmd")], 300,
        .expired, 0, none, none, none⟩ : ApprovalRequest).status = .expired) ∧
    (runHandler initialHandler
        [HandlerOp.terminal 0 "cmd", HandlerOp.getPending 1000]).get_rejected_count =
      ((runHandler initialHandler
          [HandlerOp.terminal 0 "cmd", HandlerOp.getPending 1000]).rejected_requests.filter
        (fun r => r.status == .rejected)).length +
      ((runHandler initialHandler
          [HandlerOp.terminal 0 "cmd", HandlerOp.getPending 1000]).rejected_requests.filter
        (fun r => r.status == .expired)).length := by
  have h := handler_partition_invariant [HandlerOp.terminal 0 "cmd", HandlerOp.getPending 1000]
  exact ⟨h.2.1 _ (by decide), h.2.2.2⟩

end CompMon
